import Mathlib

/-!
# ai_bot: chat relay server (`src/ai-bot/server/index.js`)

A shallow embedding of the request handlers of the chat server: the input
validation `validateChatInput`, the history projection and the session
resolution of `POST /api/chat`, its post-call mutation of the chat store, the
failure-to-status mapping of its `catch` block, and `DELETE /api/chat/:id`.

JavaScript strings are sequences of UTF-16 code units, so that `length`,
`trim`, `substring` and `includes` are the list operations they are in the
language. Everything the handlers obtain from outside (the reply of the
generative model, the clock, `Math.random`, the outcome of the file write) is
a field of `Env`; the parsed content of `chats.json` is the `chats` argument.
The store functions `initializeChatsFile`, `readChats` and `writeChats` act on
the text of `chats.json`; `stringifyValue` and `parseJson` are the runtime's
`JSON.stringify(value, null, 2)` and `JSON.parse`, after ECMA-262. The handlers
come twice: on the sequence `readChats` returned (`postChat`, `getChat`,
`deleteChat`), and on the file (`postApiChat`, `getApiChat`, `deleteApiChat`).
-/

set_option autoImplicit false

namespace AiBot

/-! ## JavaScript values -/

/-- A JavaScript string: its UTF-16 code units. `s.length` is `List.length`. -/
abbrev JsString := List Nat

/-- UTF-16 encoding of one code point. -/
def utf16 (c : Char) : List Nat :=
  if c.toNat < 0x10000 then [c.toNat]
  else [0xD800 + (c.toNat - 0x10000) / 0x400, 0xDC00 + (c.toNat - 0x10000) % 0x400]

/-- The JavaScript string denoted by a string literal of the source. -/
def js (s : String) : JsString := s.toList.flatMap utf16

/-- The code units `String.prototype.trim` strips: ECMAScript WhiteSpace and
LineTerminator (all of them lie in the Basic Multilingual Plane). -/
def isWhiteSpace (c : Nat) : Bool :=
  c == 0x09 || c == 0x0A || c == 0x0B || c == 0x0C || c == 0x0D || c == 0x20 ||
  c == 0xA0 || c == 0x1680 || (0x2000 ≤ c && c ≤ 0x200A) || c == 0x2028 ||
  c == 0x2029 || c == 0x202F || c == 0x205F || c == 0x3000 || c == 0xFEFF

/-- `s.trim()`: white space removed from both ends. -/
def trim (s : JsString) : JsString :=
  ((s.dropWhile isWhiteSpace).reverse.dropWhile isWhiteSpace).reverse

/-- `s.substring(start, end)`: the arguments are swapped when `start > end`
and clamped to the length. -/
def substring (s : JsString) (start stop : Nat) : JsString :=
  (s.take (max start stop)).drop (min start stop)

/-- `s.substring(start)`. -/
def substringFrom (s : JsString) (start : Nat) : JsString := s.drop start

/-- `s.includes(needle)`: `needle` occurs in `s` as a contiguous run of code units. -/
def includes (s needle : JsString) : Bool :=
  s.tails.any fun t => needle.isPrefixOf t

/-- A value of a parsed request body. Numbers are kept by their integer value:
the handlers only test them for truthiness and for their type. -/
inductive JsVal where
  | undefined
  | null
  | bool (b : Bool)
  | num (n : Int)
  | str (s : JsString)
  | arr (items : List JsVal)
  | obj (fields : List (JsString × JsVal))

namespace JsVal

/-- The truthiness of a value (`ToBoolean`), as in `!v`, `v && ...`, `v || ...`. -/
def truthy : JsVal → Bool
  | undefined => false
  | null => false
  | bool b => b
  | num n => n != 0
  | str s => !s.isEmpty
  | arr _ => true
  | obj _ => true

/-- Whether `typeof v === 'string'`. -/
def isString : JsVal → Bool
  | str _ => true
  | _ => false

/-- The call `v.trim()`. Only strings have the method: on any other value the
call throws a `TypeError`, whose message (as V8 words it) is the error. -/
def callTrim : JsVal → Except JsString JsString
  | str s => .ok (trim s)
  | undefined => .error (js "Cannot read properties of undefined (reading \x27trim\x27)")
  | null => .error (js "Cannot read properties of null (reading \x27trim\x27)")
  | _ => .error (js "message.trim is not a function")

/-- The comparison `v.length > n`. It is `false` where `v.length` is not a
number (`undefined > n`). -/
def lengthGt (v : JsVal) (n : Nat) : Bool :=
  match v with
  | str s => decide (n < s.length)
  | arr items => decide (n < items.length)
  | _ => false

/-- The comparison `s === v` of a string with a value: strict equality holds
only for a string with the same code units. -/
def strictEqStr (s : JsString) : JsVal → Bool
  | str t => s == t
  | _ => false

/-- The value of `v || d`. -/
def orElse (v d : JsVal) : JsVal := if v.truthy then v else d

mutual
/-- Whether the conversion of a request value to a string, as a template
literal applies it, returns; otherwise it throws a `TypeError`. A primitive
converts. An object converts through `Object.prototype.toString` unless it has
a key `toString` of its own, whose value is never callable: then `valueOf`
yields no primitive either. An array converts through `join`, which converts
its elements. -/
def convertsToString : JsVal → Bool
  | arr items => allConvertToString items
  | obj fields => !(fields.any fun field => field.1 == js "toString")
  | _ => true
/-- Whether every element of an array converts to a string. -/
def allConvertToString : List JsVal → Bool
  | [] => true
  | v :: vs => convertsToString v && allConvertToString vs
end

end JsVal

/-! ## Input validation (lines 60-78) -/

/-- `validateChatInput(message, aiModel)`: the list of violations, or the
message of the error thrown while computing it. -/
def validateChatInput (message aiModel : JsVal) : Except JsString (List JsString) :=
  let errors : List JsString := []
  let errors := if !message.truthy then errors ++ [js "Message is required"] else errors
  let errors := if !message.isString then errors ++ [js "Message must be a string"] else errors
  -- `message && message.trim().length === 0`
  match (if message.truthy then message.callTrim.map (fun t => t.length == 0) else .ok false) with
  | .error e => .error e
  | .ok blank =>
    let errors := if blank then errors ++ [js "Message cannot be empty"] else errors
    let errors :=
      if message.truthy && message.lengthGt 2000 then
        errors ++ [js "Message is too long (max 2000 characters)"]
      else errors
    let errors :=
      if aiModel.truthy && !aiModel.isString then errors ++ [js "AI model must be a string"]
      else errors
    .ok errors

/-! ## The chat store -/

/-- One stored message. -/
structure Message where
  role : JsString
  content : JsString
  timestamp : JsString
  deriving DecidableEq, Repr

/-- One stored chat session. -/
structure ChatSession where
  id : JsString
  title : JsString
  messages : List Message
  createdAt : JsString
  deriving DecidableEq, Repr

/-- One `parts` entry of a history element. -/
structure Part where
  text : JsString
  deriving DecidableEq, Repr

/-- One element of the history handed to `model.startChat`. -/
structure HistoryEntry where
  role : JsString
  parts : List Part
  deriving DecidableEq, Repr

/-- The projection of lines 150-153:
`currentChat.messages.map(msg => (role: ..., parts: [(text: msg.content)]))`. -/
def conversationHistory (messages : List Message) : List HistoryEntry :=
  messages.map fun msg =>
    { role := if msg.role = js "assistant" then js "model" else js "user"
      parts := [{ text := msg.content }] }

/-- The lookup `chats.find(chat => chat.id === chatId)`. -/
def findChat (chats : List ChatSession) (chatId : JsVal) : Option ChatSession :=
  chats.find? fun chat => JsVal.strictEqStr chat.id chatId

/-- The effect on `chats` of `currentChat.messages.push(...)`, `currentChat`
being the element `find` returned: the first session with the id, in place. -/
def pushMessages (chatId : JsVal) (added : List Message) : List ChatSession → List ChatSession
  | [] => []
  | chat :: rest =>
    if JsVal.strictEqStr chat.id chatId then
      { chat with messages := chat.messages ++ added } :: rest
    else chat :: pushMessages chatId added rest

/-! ## JSON (the runtime's `JSON.stringify` and `JSON.parse`) -/

/-- A value as `JSON.parse` builds it and `JSON.stringify` prints it. A number
is kept by its literal; an object is its members in the order of their
definition. -/
inductive JsonValue where
  | null
  | bool (b : Bool)
  | number (literal : JsString)
  | string (s : JsString)
  | array (items : List JsonValue)
  | object (members : List (JsString × JsonValue))

/-- The lower-case hexadecimal digit of a number below 16. -/
def hexDigit (n : Nat) : Nat := if n < 10 then 48 + n else 87 + n

/-- The escape `\uXXXX` of a code unit. -/
def unicodeEscape (c : Nat) : JsString :=
  [92, 117, hexDigit (c / 4096 % 16), hexDigit (c / 256 % 16), hexDigit (c / 16 % 16),
    hexDigit (c % 16)]

/-- How `QuoteJSONString` prints a code unit that is not a surrogate. -/
def quoteUnit (c : Nat) : JsString :=
  if c = 8 then js "\\b" else if c = 9 then js "\\t" else if c = 10 then js "\\n"
  else if c = 12 then js "\\f" else if c = 13 then js "\\r" else if c = 34 then js "\\\""
  else if c = 92 then js "\\\\" else if c < 32 then unicodeEscape c else [c]

/-- A leading (high) surrogate. -/
def isLeadSurrogate (c : Nat) : Bool := 0xD800 ≤ c && c ≤ 0xDBFF

/-- A trailing (low) surrogate. -/
def isTrailSurrogate (c : Nat) : Bool := 0xDC00 ≤ c && c ≤ 0xDFFF

/-- The body of `QuoteJSONString`: a surrogate pair is kept, a lone surrogate
is escaped, any other code unit is printed by `quoteUnit`. -/
def quoteUnits : JsString → JsString
  | [] => []
  | [c] => if isLeadSurrogate c || isTrailSurrogate c then unicodeEscape c else quoteUnit c
  | c :: d :: rest =>
    if isLeadSurrogate c && isTrailSurrogate d then c :: d :: quoteUnits rest
    else if isLeadSurrogate c || isTrailSurrogate c then unicodeEscape c ++ quoteUnits (d :: rest)
    else quoteUnit c ++ quoteUnits (d :: rest)

/-- `QuoteJSONString(s)`. -/
def quote (s : JsString) : JsString := 34 :: (quoteUnits s ++ [34])

/-- An indentation of `n` spaces. -/
def spaces (n : Nat) : JsString := List.replicate n 32

mutual
/-- `JSON.stringify(value, null, 2)` at an indentation. -/
def stringifyValue (indent : Nat) : JsonValue → JsString
  | .null => js "null"
  | .bool true => js "true"
  | .bool false => js "false"
  | .number literal => literal
  | .string s => quote s
  | .array [] => js "[]"
  | .array (v :: vs) =>
    js "[\n" ++ spaces (indent + 2) ++ stringifyValue (indent + 2) v ++
      stringifyItems (indent + 2) vs ++ js "\n" ++ spaces indent ++ js "]"
  | .object [] => js "\x7b\x7d"
  | .object (m :: ms) =>
    js "\x7b\n" ++ spaces (indent + 2) ++ quote m.1 ++ js ": " ++
      stringifyValue (indent + 2) m.2 ++ stringifyMembers (indent + 2) ms ++ js "\n" ++
      spaces indent ++ js "\x7d"
/-- The elements of an array after the first. -/
def stringifyItems (indent : Nat) : List JsonValue → JsString
  | [] => []
  | v :: vs => js ",\n" ++ spaces indent ++ stringifyValue indent v ++ stringifyItems indent vs
/-- The members of an object after the first. -/
def stringifyMembers (indent : Nat) : List (JsString × JsonValue) → JsString
  | [] => []
  | m :: ms =>
    js ",\n" ++ spaces indent ++ quote m.1 ++ js ": " ++ stringifyValue indent m.2 ++
      stringifyMembers indent ms
end

/-- JSON white space. -/
def isJsonSpace (c : Nat) : Bool := c == 9 || c == 10 || c == 13 || c == 32

/-- The input after its leading white space. -/
def skipSpace (input : JsString) : JsString := input.dropWhile isJsonSpace

/-- The value of a hexadecimal digit. -/
def hexValue (c : Nat) : Option Nat :=
  if 48 ≤ c ∧ c ≤ 57 then some (c - 48)
  else if 97 ≤ c ∧ c ≤ 102 then some (c - 87)
  else if 65 ≤ c ∧ c ≤ 70 then some (c - 55)
  else none

/-- The code unit of a one-letter escape. -/
def escapeValue (c : Nat) : Option Nat :=
  if c = 34 then some 34 else if c = 92 then some 92 else if c = 47 then some 47
  else if c = 98 then some 8 else if c = 102 then some 12 else if c = 110 then some 10
  else if c = 114 then some 13 else if c = 116 then some 9 else none

/-- A string literal after its opening quote: the string and the input left. -/
def parseStringBody : JsString → Option (JsString × JsString)
  | [] => none
  | c :: rest =>
    if c = 34 then some ([], rest)
    else if c = 92 then
      match rest with
      | [] => none
      | e :: rest1 =>
        if e = 117 then
          match rest1 with
          | h3 :: h2 :: h1 :: h0 :: rest2 =>
            match hexValue h3, hexValue h2, hexValue h1, hexValue h0 with
            | some a, some b, some c1, some d =>
              (parseStringBody rest2).map fun p => ((4096 * a + 256 * b + 16 * c1 + d) :: p.1, p.2)
            | _, _, _, _ => none
          | _ => none
        else
          match escapeValue e with
          | some u => (parseStringBody rest1).map fun p => (u :: p.1, p.2)
          | none => none
    else if c < 32 then none
    else (parseStringBody rest).map fun p => (c :: p.1, p.2)

/-- A decimal digit. -/
def isDigit (c : Nat) : Bool := 48 ≤ c && c ≤ 57

/-- The digits at the head of the input, which must not be empty. -/
def parseDigits (input : JsString) : Option (JsString × JsString) :=
  if (input.takeWhile isDigit).isEmpty then none
  else some (input.takeWhile isDigit, input.dropWhile isDigit)

/-- A number literal: the literal and the input left. -/
def parseNumber (input : JsString) : Option (JsString × JsString) :=
  let signed : JsString × JsString :=
    match input with
    | 45 :: rest => ([45], rest)
    | _ => ([], input)
  let whole : Option (JsString × JsString) :=
    match signed.2 with
    | [] => none
    | c :: rest =>
      if c = 48 then some ([48], rest)
      else if isDigit c then parseDigits (c :: rest) else none
  match whole with
  | none => none
  | some (digits, rest) =>
    let fraction : Option (JsString × JsString) :=
      match rest with
      | 46 :: rest1 => (parseDigits rest1).map fun p => (46 :: p.1, p.2)
      | _ => some ([], rest)
    match fraction with
    | none => none
    | some (frac, rest1) =>
      let exponent : Option (JsString × JsString) :=
        match rest1 with
        | e :: rest2 =>
          if e = 101 ∨ e = 69 then
            match rest2 with
            | s :: rest3 =>
              if s = 43 ∨ s = 45 then (parseDigits rest3).map fun p => (e :: s :: p.1, p.2)
              else (parseDigits rest2).map fun p => (e :: p.1, p.2)
            | [] => none
          else some ([], rest1)
        | [] => some ([], rest1)
      match exponent with
      | none => none
      | some (exp, rest2) => some (signed.1 ++ digits ++ frac ++ exp, rest2)

/-- The members of an object after the definition of `key`: a key already
present keeps its place and takes the new value. -/
def setMember (key : JsString) (v : JsonValue) :
    List (JsString × JsonValue) → List (JsString × JsonValue)
  | [] => [(key, v)]
  | m :: ms => if m.1 = key then (key, v) :: ms else m :: setMember key v ms

/-- The members of the object built from the members of an object literal, in
the order of the text. -/
def normalizeMembers (members : List (JsString × JsonValue)) : List (JsString × JsonValue) :=
  members.foldl (fun acc m => setMember m.1 m.2 acc) []

mutual
/-- A JSON value at the head of the input, after white space: the value and the
input left. The fuel bounds the depth of the calls. -/
def parseValue : Nat → JsString → Option (JsonValue × JsString)
  | 0, _ => none
  | fuel + 1, input =>
    match skipSpace input with
    | [] => none
    | c :: rest =>
      if c = 34 then (parseStringBody rest).map fun p => (.string p.1, p.2)
      else if c = 91 then
        match skipSpace rest with
        | [] => none
        | d :: rest1 =>
          if d = 93 then some (.array [], rest1)
          else (parseItems fuel rest).map fun p => (.array p.1, p.2)
      else if c = 123 then
        match skipSpace rest with
        | [] => none
        | d :: rest1 =>
          if d = 125 then some (.object [], rest1)
          else (parseMembers fuel rest).map fun p => (.object (normalizeMembers p.1), p.2)
      else if (js "true").isPrefixOf (c :: rest) then some (.bool true, rest.drop 3)
      else if (js "false").isPrefixOf (c :: rest) then some (.bool false, rest.drop 4)
      else if (js "null").isPrefixOf (c :: rest) then some (.null, rest.drop 3)
      else (parseNumber (c :: rest)).map fun p => (.number p.1, p.2)
/-- The elements of an array up to its closing bracket. -/
def parseItems : Nat → JsString → Option (List JsonValue × JsString)
  | 0, _ => none
  | fuel + 1, input =>
    match parseValue fuel input with
    | none => none
    | some (v, rest) =>
      match skipSpace rest with
      | [] => none
      | c :: rest1 =>
        if c = 44 then (parseItems fuel rest1).map fun p => (v :: p.1, p.2)
        else if c = 93 then some ([v], rest1)
        else none
/-- The members of an object up to its closing brace. -/
def parseMembers : Nat → JsString → Option (List (JsString × JsonValue) × JsString)
  | 0, _ => none
  | fuel + 1, input =>
    match skipSpace input with
    | [] => none
    | c :: rest =>
      if c = 34 then
        match parseStringBody rest with
        | none => none
        | some (key, rest1) =>
          match skipSpace rest1 with
          | [] => none
          | d :: rest2 =>
            if d = 58 then
              match parseValue fuel rest2 with
              | none => none
              | some (v, rest3) =>
                match skipSpace rest3 with
                | [] => none
                | e :: rest4 =>
                  if e = 44 then (parseMembers fuel rest4).map fun p => ((key, v) :: p.1, p.2)
                  else if e = 125 then some ([(key, v)], rest4)
                  else none
            else none
      else none
end

/-- `JSON.parse(text)`: the value, or `none` for the `SyntaxError`. -/
def parseJson (text : JsString) : Option JsonValue :=
  match parseValue (2 * text.length + 2) text with
  | none => none
  | some (v, rest) => if (skipSpace rest).isEmpty then some v else none

/-- The JavaScript value of a stored message. -/
def messageJson (m : Message) : JsonValue :=
  .object [(js "role", .string m.role), (js "content", .string m.content),
    (js "timestamp", .string m.timestamp)]

/-- The JavaScript value of a session. -/
def sessionJson (c : ChatSession) : JsonValue :=
  .object [(js "id", .string c.id), (js "title", .string c.title),
    (js "messages", .array (c.messages.map messageJson)), (js "createdAt", .string c.createdAt)]

/-- The JavaScript value of a store. -/
def chatsJson (chats : List ChatSession) : JsonValue := .array (chats.map sessionJson)


mutual
/-- Whether a value holds no number and no object with a key twice: the values
a store is made of. -/
def JsonValue.plain : JsonValue → Bool
  | .number _ => false
  | .array items => JsonValue.itemsPlain items
  | .object members =>
    decide ((members.map fun m => m.1).Nodup) && JsonValue.membersPlain members
  | _ => true
/-- Whether the elements of an array are plain. -/
def JsonValue.itemsPlain : List JsonValue → Bool
  | [] => true
  | v :: vs => JsonValue.plain v && JsonValue.itemsPlain vs
/-- Whether the values of the members of an object are plain. -/
def JsonValue.membersPlain : List (JsString × JsonValue) → Bool
  | [] => true
  | m :: ms => JsonValue.plain m.2 && JsonValue.membersPlain ms
end

mutual
/-- A fuel that suffices to parse the printed value. -/
def JsonValue.fuelNeed : JsonValue → Nat
  | .array items => 1 + JsonValue.itemsFuelNeed items
  | .object members => 1 + JsonValue.membersFuelNeed members
  | _ => 1
/-- A fuel that suffices to parse the printed elements. -/
def JsonValue.itemsFuelNeed : List JsonValue → Nat
  | [] => 0
  | v :: vs => 1 + JsonValue.fuelNeed v + JsonValue.itemsFuelNeed vs
/-- A fuel that suffices to parse the printed members. -/
def JsonValue.membersFuelNeed : List (JsString × JsonValue) → Nat
  | [] => 0
  | m :: ms => 1 + JsonValue.fuelNeed m.2 + JsonValue.membersFuelNeed ms
end

/-- The reading of a parsed value as a stored message: `none` unless the value
is an object with the string members `role`, `content`, `timestamp`. -/
def decodeMessage : JsonValue → Option Message
  | .object [(k1, .string role), (k2, .string content), (k3, .string timestamp)] =>
    if k1 = js "role" ∧ k2 = js "content" ∧ k3 = js "timestamp" then
      some { role := role, content := content, timestamp := timestamp }
    else none
  | _ => none

/-- The reading of parsed values as stored messages. -/
def decodeMessages : List JsonValue → Option (List Message)
  | [] => some []
  | v :: vs =>
    match decodeMessage v, decodeMessages vs with
    | some m, some ms => some (m :: ms)
    | _, _ => none

/-- The reading of a parsed value as a session: `none` unless the value is an
object with the members `id`, `title`, `messages`, `createdAt` of a session. -/
def decodeSession : JsonValue → Option ChatSession
  | .object [(k1, .string id), (k2, .string title), (k3, .array items),
      (k4, .string createdAt)] =>
    if k1 = js "id" ∧ k2 = js "title" ∧ k3 = js "messages" ∧ k4 = js "createdAt" then
      (decodeMessages items).map fun messages =>
        { id := id, title := title, messages := messages, createdAt := createdAt }
    else none
  | _ => none

/-- The reading of parsed values as sessions. -/
def decodeSessions : List JsonValue → Option (List ChatSession)
  | [] => some []
  | v :: vs =>
    match decodeSession v, decodeSessions vs with
    | some c, some cs => some (c :: cs)
    | _, _ => none

/-- The reading of a parsed document as a store: the sequence of sessions whose
JavaScript value it is, `none` for a value outside the data model. -/
def decodeChats : JsonValue → Option (List ChatSession)
  | .array items => decodeSessions items
  | _ => none

/-! ## The environment of a request and the responses -/

/-- The call made to the generative model. -/
inductive ModelCall where
  /-- `model.startChat((history: ...)).sendMessage(cleanMessage)` (lines 164-178). -/
  | startChatSendMessage (history : List HistoryEntry) (message : JsString)
  /-- `model.generateContent(cleanMessage)` (lines 185-188). -/
  | generateContent (message : JsString)
  deriving DecidableEq, Repr

/-- What a request obtains from outside the program. -/
structure Env where
  /-- Outcome of the race between the model call and the 30 second timer,
  followed by `response.text()`: the text, or the message of the error thrown
  (`Request timeout` when the timer won). -/
  callModel : ModelCall → Except JsString JsString
  /-- Message of the error `fs.writeFile` rejects with, when the write fails. -/
  writeFailure : Option JsString
  /-- `new Date().toISOString()` at the `user` message. -/
  userTime : JsString
  /-- `new Date().toISOString()` at the `assistant` message. -/
  assistantTime : JsString
  /-- `new Date().toISOString()` at `createdAt`. -/
  createdTime : JsString
  /-- `new Date().toISOString()` in the response. -/
  responseTime : JsString
  /-- `Math.random().toString(36)` at the new session id. -/
  randomId : JsString
  /-- `Math.random().toString(36)` at the `requestId` of a failure. -/
  randomRequest : JsString

/-- The JSON body of a response. -/
inductive Body where
  /-- A body with `success: false` and `error`, and with `details`, `timestamp`
  and `requestId` where present. -/
  | failure (error : JsString) (details : Option (List JsString))
      (timestamp requestId : Option JsString)
  /-- The success body of `POST /api/chat` (lines 218-225). -/
  | chat (message : JsString) (model : JsVal) (timestamp : JsString) (messageLength : Nat)
      (chatId : JsString)
  /-- The success body of `GET /api/chat/:id`. -/
  | chatDetail (chat : ChatSession)
  /-- The success body of `DELETE /api/chat/:id`. -/
  | deleted (message timestamp : JsString)

/-- An HTTP response: status code and JSON body. -/
structure Response where
  status : Nat
  body : Body

/-- What a handler did: its response, the sequence it handed to `writeChats`
(when it reached the call), and the model call it made (when it made one). -/
structure Outcome where
  response : Response
  written : Option (List ChatSession)
  call : Option ModelCall

/-- The request body fields `POST /api/chat` destructures; a missing key is
`undefined`. -/
structure ChatRequest where
  message : JsVal
  aiModel : JsVal
  chatId : JsVal

/-! ## `POST /api/chat` (lines 113-252) -/

/-- The `statusCode` and `errorMessage` the `catch` block chooses from
`error.message` (lines 229-243). -/
def errorStatus (message : JsString) : Nat × JsString :=
  if includes message (js "API key") then (401, js "API key error")
  else if includes message (js "timeout") then (408, js "Request timeout")
  else if includes message (js "quota") then (429, js "API quota exceeded")
  else if includes message (js "Chat ID not found") then (404, js "Chat ID not found")
  else (500, js "Internal server error")

/-- The response of the `catch` block (lines 227-251). -/
def catchResponse (env : Env) (message : JsString) : Response :=
  { status := (errorStatus message).1
    body := .failure (errorStatus message).2 none (some env.responseTime)
      (some (substringFrom env.randomRequest 7)) }

/-- The session resolution of lines 142-158: the session found and the
projected history, or the thrown `Chat ID not found`. -/
def resolveChat (chats : List ChatSession) (chatId : JsVal) :
    Except JsString (Option ChatSession × List HistoryEntry) :=
  if chatId.truthy then
    match findChat chats chatId with
    | some currentChat => .ok (some currentChat, conversationHistory currentChat.messages)
    | none => .error (js "Chat ID not found")
  else .ok (none, [])

/-- The two messages appended on success (lines 198-199 and 206-207). -/
def exchange (env : Env) (cleanMessage text : JsString) : List Message :=
  [ { role := js "user", content := cleanMessage, timestamp := env.userTime },
    { role := js "assistant", content := trim text, timestamp := env.assistantTime } ]

/-- The session object built at lines 202-210. -/
def newChat (env : Env) (cleanMessage text : JsString) : ChatSession :=
  { id := substring env.randomId 2 10
    title := substring cleanMessage 0 30 ++ (if cleanMessage.length > 30 then js "..." else js "")
    messages := exchange env cleanMessage text
    createdAt := env.createdTime }

/-- The post-call mutation of lines 195-212: the new content of `chats` and the
session `currentChat` then refers to. -/
def storeExchange (env : Env) (chats : List ChatSession) (chatId : JsVal)
    (currentChat : Option ChatSession) (cleanMessage text : JsString) :
    List ChatSession × ChatSession :=
  match chatId.truthy, currentChat with
  | true, some found =>
    (pushMessages chatId (exchange env cleanMessage text) chats,
      { found with messages := found.messages ++ exchange env cleanMessage text })
  | _, _ => (chats ++ [newChat env cleanMessage text], newChat env cleanMessage text)

/-- The handler of `POST /api/chat`, `chats` being what `readChats()` returns. -/
def postChat (env : Env) (chats : List ChatSession) (req : ChatRequest) : Outcome :=
  match validateChatInput req.message req.aiModel with
  | .error e => { response := catchResponse env e, written := none, call := none }
  | .ok validationErrors =>
    if validationErrors.length > 0 then
      { response :=
          { status := 400
            body := .failure (js "Validation failed") (some validationErrors) none none }
        written := none, call := none }
    else
      match req.message.callTrim with
      | .error e => { response := catchResponse env e, written := none, call := none }
      | .ok cleanMessage =>
        -- line 129: the template literal converts `chatId || 'Yangi suhbat'` to a string
        if !(req.chatId.orElse (.str (js "Yangi suhbat"))).convertsToString then
          { response := catchResponse env (js "Cannot convert object to primitive value")
            written := none, call := none }
        else
        match resolveChat chats req.chatId with
        | .error e => { response := catchResponse env e, written := none, call := none }
        | .ok (currentChat, history) =>
          let call :=
            if history.length > 0 then ModelCall.startChatSendMessage history cleanMessage
            else ModelCall.generateContent cleanMessage
          match env.callModel call with
          | .error e => { response := catchResponse env e, written := none, call := some call }
          | .ok text =>
            if text.isEmpty || (trim text).length == 0 then
              { response := catchResponse env (js "Empty response from AI")
                written := none, call := some call }
            else
              let stored := storeExchange env chats req.chatId currentChat cleanMessage text
              match env.writeFailure with
              | some e =>
                { response := catchResponse env e, written := some stored.1, call := some call }
              | none =>
                { response :=
                    { status := 200
                      body := .chat (trim text) (req.aiModel.orElse (.str (js "Gemini")))
                        env.responseTime text.length stored.2.id }
                  written := some stored.1, call := some call }

/-! ## `GET /api/chat/:id` and `DELETE /api/chat/:id` (lines 275-325) -/

/-- The handler of `GET /api/chat/:id`; the route parameter is a string. -/
def getChat (env : Env) (chats : List ChatSession) (id : JsString) : Outcome :=
  match chats.find? (fun c => c.id == id) with
  | none =>
    { response := { status := 404,
                    body := .failure (js "Chat not found") none (some env.responseTime) none }
      written := none, call := none }
  | some chat =>
    { response := { status := 200, body := .chatDetail chat }, written := none, call := none }

/-- The handler of `DELETE /api/chat/:id`; the route parameter is a string. -/
def deleteChat (env : Env) (chats : List ChatSession) (id : JsString) : Outcome :=
  let updatedChats := chats.filter fun chat => chat.id != id
  if chats.length == updatedChats.length then
    { response := { status := 404,
                    body := .failure (js "Chat not found") none (some env.responseTime) none }
      written := none, call := none }
  else
    match env.writeFailure with
    | some _ =>
      { response := { status := 500,
                      body := .failure (js "Failed to delete chat") none
                        (some env.responseTime) none }
        written := some updatedChats, call := none }
    | none =>
      { response := { status := 200,
                      body := .deleted (js "Chat deleted successfully") env.responseTime }
        written := some updatedChats, call := none }

/-! ## The store functions (lines 80-110) -/

/-- The file `chats.json`: its text, or `none` while it does not exist. A file
that exists can be accessed and read. The text stands for the bytes: Node
writes and reads the file as UTF-8, which loses nothing on the texts written
here, since `JSON.stringify` escapes every lone surrogate. -/
abbrev ChatsFile := Option JsString

/-- `initializeChatsFile()`: the file afterwards, or the message of the error
thrown by the write of the empty document. -/
def initializeChatsFile (env : Env) (file : ChatsFile) : Except JsString ChatsFile :=
  match file with
  | some data => .ok (some data)
  | none =>
    match env.writeFailure with
    | some e => .error e
    | none => .ok (some (stringifyValue 0 (.array [])))

/-- `readChats()`: the value returned and the file afterwards. Every error
thrown inside is caught and answered with the empty array. -/
def readChats (env : Env) (file : ChatsFile) : JsonValue × ChatsFile :=
  match initializeChatsFile env file with
  | .error _ => (.array [], file)
  | .ok initialized =>
    match initialized with
    | none => (.array [], initialized)
    | some data =>
      match parseJson data with
      | some value => (value, initialized)
      | none => (.array [], initialized)

/-- `writeChats(chats)`: whether it returned or threw, and the file afterwards. -/
def writeChats (env : Env) (file : ChatsFile) (chats : List ChatSession) :
    Except JsString Unit × ChatsFile :=
  match env.writeFailure with
  | some e => (.error e, file)
  | none => (.ok (), some (stringifyValue 0 (chatsJson chats)))

/-! ## The handlers on the file -/

/-- Whether a request gets to the `readChats()` call of line 142: it passed
validation and the two log lines did not throw. -/
def reachesStore (req : ChatRequest) : Bool :=
  match validateChatInput req.message req.aiModel with
  | .ok [] =>
    match req.message.callTrim with
    | .ok _ => (req.chatId.orElse (.str (js "Yangi suhbat"))).convertsToString
    | .error _ => false
  | _ => false

/-- The handler of `POST /api/chat` on the file: the response and the file
afterwards; `none` when the document is JSON for something else than a sequence
of sessions, which is outside the data model. -/
def postApiChat (env : Env) (file : ChatsFile) (req : ChatRequest) :
    Option (Response × ChatsFile) :=
  match validateChatInput req.message req.aiModel with
  | .error e => some (catchResponse env e, file)
  | .ok validationErrors =>
    if validationErrors.length > 0 then
      some ({ status := 400
              body := .failure (js "Validation failed") (some validationErrors) none none }, file)
    else
      match req.message.callTrim with
      | .error e => some (catchResponse env e, file)
      | .ok cleanMessage =>
        if !(req.chatId.orElse (.str (js "Yangi suhbat"))).convertsToString then
          some (catchResponse env (js "Cannot convert object to primitive value"), file)
        else
        -- line 142: `let chats = await readChats()`
        match decodeChats (readChats env file).1 with
        | none => none
        | some chats =>
          match resolveChat chats req.chatId with
          | .error e => some (catchResponse env e, (readChats env file).2)
          | .ok (currentChat, history) =>
            let call :=
              if history.length > 0 then ModelCall.startChatSendMessage history cleanMessage
              else ModelCall.generateContent cleanMessage
            match env.callModel call with
            | .error e => some (catchResponse env e, (readChats env file).2)
            | .ok text =>
              if text.isEmpty || (trim text).length == 0 then
                some (catchResponse env (js "Empty response from AI"), (readChats env file).2)
              else
                let stored := storeExchange env chats req.chatId currentChat cleanMessage text
                -- line 214: `await writeChats(chats)`
                match writeChats env (readChats env file).2 stored.1 with
                | (.error e, written) => some (catchResponse env e, written)
                | (.ok _, written) =>
                  some ({ status := 200
                          body := .chat (trim text) (req.aiModel.orElse (.str (js "Gemini")))
                            env.responseTime text.length stored.2.id }, written)

/-- The handler of `GET /api/chat/:id` on the file. -/
def getApiChat (env : Env) (file : ChatsFile) (id : JsString) : Option (Response × ChatsFile) :=
  match decodeChats (readChats env file).1 with
  | none => none
  | some chats =>
    match chats.find? (fun c => c.id == id) with
    | none =>
      some ({ status := 404
              body := .failure (js "Chat not found") none (some env.responseTime) none },
        (readChats env file).2)
    | some chat => some ({ status := 200, body := .chatDetail chat }, (readChats env file).2)

/-- The handler of `DELETE /api/chat/:id` on the file. -/
def deleteApiChat (env : Env) (file : ChatsFile) (id : JsString) :
    Option (Response × ChatsFile) :=
  match decodeChats (readChats env file).1 with
  | none => none
  | some chats =>
    let updatedChats := chats.filter fun chat => chat.id != id
    if chats.length == updatedChats.length then
      some ({ status := 404
              body := .failure (js "Chat not found") none (some env.responseTime) none },
        (readChats env file).2)
    else
      match writeChats env (readChats env file).2 updatedChats with
      | (.error _, written) =>
        some ({ status := 500
                body := .failure (js "Failed to delete chat") none (some env.responseTime) none },
          written)
      | (.ok _, written) =>
        some ({ status := 200
                body := .deleted (js "Chat deleted successfully") env.responseTime }, written)

/-- A stored session with one exchange, for the evaluation of the handlers. -/
def sampleChat : ChatSession :=
  { id := js "4fzyo82m", title := js "Hello"
    messages :=
      [ { role := js "user", content := js "Hello", timestamp := js "2024-01-01T00:00:00.000Z" },
        { role := js "assistant", content := js "Hi there",
          timestamp := js "2024-01-01T00:00:00.001Z" } ]
    createdAt := js "2024-01-01T00:00:00.002Z" }

/-- An environment in which the model answers every call with `reply` and the
write succeeds; the handlers are evaluated in it on concrete requests. -/
def replyEnv (reply : JsString) : Env :=
  { callModel := fun _ => .ok reply
    writeFailure := none
    userTime := js "2024-01-01T00:00:00.000Z"
    assistantTime := js "2024-01-01T00:00:00.001Z"
    createdTime := js "2024-01-01T00:00:00.002Z"
    responseTime := js "2024-01-01T00:00:00.003Z"
    randomId := js "0.4fzyo82mvyr"
    randomRequest := js "0.9x3k1c7qpd" }

/-! ## The round trip of JSON -/

theorem hexValue_hexDigit (n : Nat) (h : n < 16) : hexValue (hexDigit n) = some n := by
  interval_cases n <;> rfl

theorem parseStringBody_quote (rest : JsString) : parseStringBody (34 :: rest) = some ([], rest) := by
  rw [parseStringBody.eq_def]
  simp

theorem parseStringBody_cons_plain (c : Nat) (rest : JsString) (h34 : c ≠ 34) (h92 : c ≠ 92)
    (h32 : ¬ c < 32) :
    parseStringBody (c :: rest) = (parseStringBody rest).map fun p => (c :: p.1, p.2) := by
  rw [parseStringBody.eq_def]
  simp [h34, h92, h32]

theorem parseStringBody_unicodeEscape (c : Nat) (hc : c < 65536) (rest : JsString) :
    parseStringBody (unicodeEscape c ++ rest) =
      (parseStringBody rest).map fun p => (c :: p.1, p.2) := by
  have hsum : 4096 * (c / 4096 % 16) + 256 * (c / 256 % 16) + 16 * (c / 16 % 16) + c % 16 = c := by
    omega
  rw [parseStringBody.eq_def]
  simp only [unicodeEscape, List.cons_append, List.nil_append]
  rw [hexValue_hexDigit _ (Nat.mod_lt _ (by decide)), hexValue_hexDigit _ (Nat.mod_lt _ (by decide)),
    hexValue_hexDigit _ (Nat.mod_lt _ (by decide)), hexValue_hexDigit _ (Nat.mod_lt _ (by decide))]
  simp [hsum]

theorem parseStringBody_escape (e u : Nat) (rest : JsString) (h : escapeValue e = some u)
    (h117 : e ≠ 117) :
    parseStringBody (92 :: e :: rest) = (parseStringBody rest).map fun p => (u :: p.1, p.2) := by
  rw [parseStringBody.eq_def]
  simp [h, h117]

theorem parseStringBody_quoteUnit (c : Nat) (rest : JsString) :
    parseStringBody (quoteUnit c ++ rest) =
      (parseStringBody rest).map fun p => (c :: p.1, p.2) := by
  unfold quoteUnit
  split_ifs with h8 h9 h10 h12 h13 h34 h92 h32
  · subst h8
    rw [show js "\\b" = [92, 98] by decide]
    exact parseStringBody_escape 98 8 rest (by decide) (by decide)
  · subst h9
    rw [show js "\\t" = [92, 116] by decide]
    exact parseStringBody_escape 116 9 rest (by decide) (by decide)
  · subst h10
    rw [show js "\\n" = [92, 110] by decide]
    exact parseStringBody_escape 110 10 rest (by decide) (by decide)
  · subst h12
    rw [show js "\\f" = [92, 102] by decide]
    exact parseStringBody_escape 102 12 rest (by decide) (by decide)
  · subst h13
    rw [show js "\\r" = [92, 114] by decide]
    exact parseStringBody_escape 114 13 rest (by decide) (by decide)
  · subst h34
    rw [show js "\\\"" = [92, 34] by decide]
    exact parseStringBody_escape 34 34 rest (by decide) (by decide)
  · subst h92
    rw [show js "\\\\" = [92, 92] by decide]
    exact parseStringBody_escape 92 92 rest (by decide) (by decide)
  · exact parseStringBody_unicodeEscape c (by omega) rest
  · exact parseStringBody_cons_plain c rest h34 h92 h32

/-- The string parser reads back what `QuoteJSONString` printed. -/
theorem parseStringBody_quoteUnits (s rest : JsString) :
    parseStringBody (quoteUnits s ++ 34 :: rest) = some (s, rest) := by
  induction s using quoteUnits.induct with
  | case1 => simp [quoteUnits, parseStringBody_quote]
  | case2 c h =>
    have hc : c < 65536 := by
      simp [isLeadSurrogate, isTrailSurrogate] at h
      omega
    simp only [quoteUnits, h, if_true]
    rw [parseStringBody_unicodeEscape c hc, parseStringBody_quote]
    rfl
  | case3 c h =>
    simp only [quoteUnits, h, if_false, Bool.false_eq_true]
    rw [parseStringBody_quoteUnit, parseStringBody_quote]
    rfl
  | case4 c d tail h ih =>
    have hc : 0xD800 ≤ c := by
      simp [isLeadSurrogate] at h
      omega
    have hd : 0xDC00 ≤ d := by
      simp [isTrailSurrogate] at h
      omega
    simp only [quoteUnits, h, if_true, List.cons_append]
    rw [parseStringBody_cons_plain c _ (by omega) (by omega) (by omega),
      parseStringBody_cons_plain d _ (by omega) (by omega) (by omega), ih]
    rfl
  | case5 c d tail h1 h2 ih =>
    have hc : c < 65536 := by
      simp [isLeadSurrogate, isTrailSurrogate] at h2
      omega
    simp only [quoteUnits, h1, h2, if_true, if_false, Bool.false_eq_true]
    rw [List.append_assoc, parseStringBody_unicodeEscape c hc, ih]
    rfl
  | case6 c d tail h1 h2 ih =>
    simp only [quoteUnits, h1, h2, if_false, Bool.false_eq_true]
    rw [List.append_assoc, parseStringBody_quoteUnit, ih]
    rfl


theorem skipSpace_append (ws rest : JsString) (h : ∀ c ∈ ws, isJsonSpace c = true) :
    skipSpace (ws ++ rest) = skipSpace rest := by
  induction ws with
  | nil => rfl
  | cons a t ih =>
    have ha : isJsonSpace a = true := h a (by simp)
    have ht : ∀ c ∈ t, isJsonSpace c = true := fun c hc => h c (by simp [hc])
    simp only [skipSpace, List.cons_append, List.dropWhile_cons, ha, if_true] at ih ⊢
    exact ih ht

theorem skipSpace_cons (c : Nat) (rest : JsString) (h : isJsonSpace c = false) :
    skipSpace (c :: rest) = c :: rest := by
  simp [skipSpace, List.dropWhile_cons, h]

theorem spaces_space (n : Nat) : ∀ c ∈ spaces n, isJsonSpace c = true := by
  intro c hc
  rw [List.eq_of_mem_replicate hc]
  rfl

theorem newline_spaces_space (n : Nat) : ∀ c ∈ 10 :: spaces n, isJsonSpace c = true := by
  intro c hc
  rcases List.mem_cons.1 hc with rfl | h
  · rfl
  · exact spaces_space n c h

/-- A printed value starts with a code unit that is neither white space nor a
closing bracket. -/
theorem stringifyValue_head (indent : Nat) (v : JsonValue) (h : v.plain = true) :
    ∃ c t, stringifyValue indent v = c :: t ∧ isJsonSpace c = false ∧ c ≠ 93 ∧ c ≠ 125 := by
  cases v with
  | null => exact ⟨110, _, by simp [stringifyValue]; rfl, by decide, by decide, by decide⟩
  | bool b =>
    cases b
    · exact ⟨102, _, by simp [stringifyValue]; rfl, by decide, by decide, by decide⟩
    · exact ⟨116, _, by simp [stringifyValue]; rfl, by decide, by decide, by decide⟩
  | number literal => simp [JsonValue.plain] at h
  | string s =>
    exact ⟨34, quoteUnits s ++ [34], by simp [stringifyValue, quote], by decide, by decide,
      by decide⟩
  | array items =>
    cases items with
    | nil => exact ⟨91, _, by simp [stringifyValue]; rfl, by decide, by decide, by decide⟩
    | cons a t =>
      exact ⟨91, _, by
        simp only [stringifyValue, show js "[\n" = [91, 10] by decide, List.cons_append]
        exact rfl, by decide, by decide, by decide⟩
  | object members =>
    cases members with
    | nil => exact ⟨123, _, by simp [stringifyValue]; rfl, by decide, by decide, by decide⟩
    | cons a t =>
      exact ⟨123, _, by
        simp only [stringifyValue, show js "\x7b\n" = [123, 10] by decide, List.cons_append]
        exact rfl, by decide, by decide, by decide⟩


theorem setMember_new (key : JsString) (v : JsonValue) (ms : List (JsString × JsonValue))
    (h : key ∉ ms.map fun m => m.1) : setMember key v ms = ms ++ [(key, v)] := by
  induction ms with
  | nil => rfl
  | cons a t ih =>
    have ha : ¬ a.1 = key := fun e => h (by simp [e])
    have ht : key ∉ t.map fun m => m.1 := fun e => h (by simp [e])
    simp [setMember, ha, ih ht]

theorem foldl_setMember (ms acc : List (JsString × JsonValue))
    (h : ((acc ++ ms).map fun m => m.1).Nodup) :
    ms.foldl (fun acc m => setMember m.1 m.2 acc) acc = acc ++ ms := by
  induction ms generalizing acc with
  | nil => simp
  | cons a t ih =>
    have hnew : a.1 ∉ acc.map fun m => m.1 := by
      intro hmem
      rw [List.map_append, List.nodup_append] at h
      exact h.2.2 hmem (by simp)
    rw [List.foldl_cons, setMember_new _ _ _ hnew, ih (acc ++ [a]) (by simpa using h)]
    simp

/-- An object literal without a repeated key builds its members as written. -/
theorem normalizeMembers_nodup (ms : List (JsString × JsonValue))
    (h : (ms.map fun m => m.1).Nodup) : normalizeMembers ms = ms := by
  simpa [normalizeMembers] using foldl_setMember ms [] (by simpa using h)

/-! ### One step of each parser -/

theorem parseValue_string (fuel : Nat) (input r : JsString) (h : skipSpace input = 34 :: r) :
    parseValue (fuel + 1) input = (parseStringBody r).map fun p => (.string p.1, p.2) := by
  rw [parseValue, h]
  simp

theorem parseValue_array_empty (fuel : Nat) (input r r1 : JsString)
    (h : skipSpace input = 91 :: r) (h1 : skipSpace r = 93 :: r1) :
    parseValue (fuel + 1) input = some (.array [], r1) := by
  rw [parseValue, h]
  simp [h1]

theorem parseValue_array_items (fuel : Nat) (input r r1 : JsString) (d : Nat)
    (h : skipSpace input = 91 :: r) (h1 : skipSpace r = d :: r1) (hd : d ≠ 93) :
    parseValue (fuel + 1) input = (parseItems fuel r).map fun p => (.array p.1, p.2) := by
  rw [parseValue, h]
  simp [h1, hd]

theorem parseValue_object_empty (fuel : Nat) (input r r1 : JsString)
    (h : skipSpace input = 123 :: r) (h1 : skipSpace r = 125 :: r1) :
    parseValue (fuel + 1) input = some (.object [], r1) := by
  rw [parseValue, h]
  simp [h1]

theorem parseValue_object_members (fuel : Nat) (input r r1 : JsString) (d : Nat)
    (h : skipSpace input = 123 :: r) (h1 : skipSpace r = d :: r1) (hd : d ≠ 125) :
    parseValue (fuel + 1) input =
      (parseMembers fuel r).map fun p => (.object (normalizeMembers p.1), p.2) := by
  rw [parseValue, h]
  simp [h1, hd]

theorem parseValue_true (fuel : Nat) (input r : JsString)
    (h : skipSpace input = 116 :: 114 :: 117 :: 101 :: r) :
    parseValue (fuel + 1) input = some (.bool true, r) := by
  rw [parseValue, h]
  simp [show js "true" = [116, 114, 117, 101] by decide]

theorem parseValue_false (fuel : Nat) (input r : JsString)
    (h : skipSpace input = 102 :: 97 :: 108 :: 115 :: 101 :: r) :
    parseValue (fuel + 1) input = some (.bool false, r) := by
  rw [parseValue, h]
  simp [show js "true" = [116, 114, 117, 101] by decide,
    show js "false" = [102, 97, 108, 115, 101] by decide]

theorem parseValue_null (fuel : Nat) (input r : JsString)
    (h : skipSpace input = 110 :: 117 :: 108 :: 108 :: r) :
    parseValue (fuel + 1) input = some (.null, r) := by
  rw [parseValue, h]
  simp [show js "true" = [116, 114, 117, 101] by decide,
    show js "false" = [102, 97, 108, 115, 101] by decide,
    show js "null" = [110, 117, 108, 108] by decide]

theorem parseItems_more (fuel : Nat) (input r r1 : JsString) (v : JsonValue)
    (h : parseValue fuel input = some (v, r)) (h1 : skipSpace r = 44 :: r1) :
    parseItems (fuel + 1) input = (parseItems fuel r1).map fun p => (v :: p.1, p.2) := by
  rw [parseItems, h]
  simp [h1]

theorem parseItems_last (fuel : Nat) (input r r1 : JsString) (v : JsonValue)
    (h : parseValue fuel input = some (v, r)) (h1 : skipSpace r = 93 :: r1) :
    parseItems (fuel + 1) input = some ([v], r1) := by
  rw [parseItems, h]
  simp [h1]

theorem parseMembers_more (fuel : Nat) (input r r1 r2 r3 r4 key : JsString) (v : JsonValue)
    (h : skipSpace input = 34 :: r) (hk : parseStringBody r = some (key, r1))
    (hc : skipSpace r1 = 58 :: r2) (hv : parseValue fuel r2 = some (v, r3))
    (h4 : skipSpace r3 = 44 :: r4) :
    parseMembers (fuel + 1) input =
      (parseMembers fuel r4).map fun p => ((key, v) :: p.1, p.2) := by
  rw [parseMembers, h]
  simp [hk, hc, hv, h4]

theorem parseMembers_last (fuel : Nat) (input r r1 r2 r3 r4 key : JsString) (v : JsonValue)
    (h : skipSpace input = 34 :: r) (hk : parseStringBody r = some (key, r1))
    (hc : skipSpace r1 = 58 :: r2) (hv : parseValue fuel r2 = some (v, r3))
    (h4 : skipSpace r3 = 125 :: r4) :
    parseMembers (fuel + 1) input = some ([(key, v)], r4) := by
  rw [parseMembers, h]
  simp [hk, hc, hv, h4]


/-! ### The printed text, unfolded -/

theorem quote_append (s rest : JsString) :
    quote s ++ rest = 34 :: (quoteUnits s ++ 34 :: rest) := by
  simp [quote]

theorem stringifyValue_array_cons (indent : Nat) (v : JsonValue) (vs : List JsonValue)
    (rest : JsString) :
    stringifyValue indent (.array (v :: vs)) ++ rest =
      91 :: ((10 :: spaces (indent + 2)) ++ (stringifyValue (indent + 2) v ++
        (stringifyItems (indent + 2) vs ++ ((10 :: spaces indent) ++ 93 :: rest)))) := by
  simp [stringifyValue, show js "[\n" = [91, 10] by decide, show js "\n" = [10] by decide,
    show js "]" = [93] by decide]

theorem stringifyItems_cons (indent : Nat) (v : JsonValue) (vs : List JsonValue)
    (rest : JsString) :
    stringifyItems indent (v :: vs) ++ rest =
      44 :: ((10 :: spaces indent) ++ (stringifyValue indent v ++
        (stringifyItems indent vs ++ rest))) := by
  simp [stringifyItems, show js ",\n" = [44, 10] by decide]

theorem stringifyValue_object_cons (indent : Nat) (k : JsString) (v : JsonValue)
    (ms : List (JsString × JsonValue)) (rest : JsString) :
    stringifyValue indent (.object ((k, v) :: ms)) ++ rest =
      123 :: ((10 :: spaces (indent + 2)) ++ (quote k ++ (58 :: 32 ::
        (stringifyValue (indent + 2) v ++ (stringifyMembers (indent + 2) ms ++
          ((10 :: spaces indent) ++ 125 :: rest)))))) := by
  simp [stringifyValue, show js "\x7b\n" = [123, 10] by decide, show js "\n" = [10] by decide,
    show js "\x7d" = [125] by decide, show js ": " = [58, 32] by decide]

theorem stringifyMembers_cons (indent : Nat) (k : JsString) (v : JsonValue)
    (ms : List (JsString × JsonValue)) (rest : JsString) :
    stringifyMembers indent ((k, v) :: ms) ++ rest =
      44 :: ((10 :: spaces indent) ++ (quote k ++ (58 :: 32 ::
        (stringifyValue indent v ++ (stringifyMembers indent ms ++ rest))))) := by
  simp [stringifyMembers, show js ",\n" = [44, 10] by decide, show js ": " = [58, 32] by decide]

theorem skipSpace_to_value (indent : Nat) (v : JsonValue) (h : v.plain = true)
    (ws rest : JsString) (hws : ∀ c ∈ ws, isJsonSpace c = true) :
    ∃ c t, skipSpace (ws ++ (stringifyValue indent v ++ rest)) = c :: t ∧ c ≠ 93 ∧ c ≠ 125 := by
  obtain ⟨c, t, ht, hsp, h93, h125⟩ := stringifyValue_head indent v h
  refine ⟨c, t ++ rest, ?_, h93, h125⟩
  rw [skipSpace_append _ _ hws, ht, List.cons_append, skipSpace_cons _ _ hsp]


/-! ### The parser reads back the printed value -/

/-- What being plain says of an object with a first member. -/
theorem plain_object_cons (k : JsString) (v : JsonValue) (ms : List (JsString × JsonValue))
    (h : (JsonValue.object ((k, v) :: ms)).plain = true) :
    ((((k, v) :: ms).map fun m => m.1).Nodup) ∧ v.plain = true ∧
      JsonValue.membersPlain ms = true := by
  rw [JsonValue.plain] at h
  simp only [Bool.and_eq_true, decide_eq_true_eq, JsonValue.membersPlain] at h
  exact ⟨h.1, h.2.1, h.2.2⟩

theorem fuelNeed_pos (v : JsonValue) : 1 ≤ v.fuelNeed := by
  cases v <;> simp [JsonValue.fuelNeed]

/-- With enough fuel the three parsers read back what the printer wrote for a
value, for the elements of an array and for the members of an object. -/
theorem parse_stringify (fuel : Nat) :
    (∀ (v : JsonValue), v.plain = true →
      ∀ (indent : Nat) (ws rest : JsString), (∀ c ∈ ws, isJsonSpace c = true) →
        v.fuelNeed ≤ fuel →
        parseValue fuel (ws ++ (stringifyValue indent v ++ rest)) = some (v, rest)) ∧
    (∀ (v : JsonValue) (vs : List JsonValue),
      v.plain = true → JsonValue.itemsPlain vs = true →
      ∀ (indent : Nat) (ws gap rest : JsString), (∀ c ∈ ws, isJsonSpace c = true) →
        (∀ c ∈ gap, isJsonSpace c = true) →
        1 + v.fuelNeed + JsonValue.itemsFuelNeed vs ≤ fuel →
        parseItems fuel (ws ++ (stringifyValue indent v ++
          (stringifyItems indent vs ++ (gap ++ 93 :: rest)))) = some (v :: vs, rest)) ∧
    (∀ (k : JsString) (v : JsonValue) (ms : List (JsString × JsonValue)),
      v.plain = true → JsonValue.membersPlain ms = true →
      ∀ (indent : Nat) (ws gap rest : JsString), (∀ c ∈ ws, isJsonSpace c = true) →
        (∀ c ∈ gap, isJsonSpace c = true) →
        1 + v.fuelNeed + JsonValue.membersFuelNeed ms ≤ fuel →
        parseMembers fuel (ws ++ (quote k ++ (58 :: 32 :: (stringifyValue indent v ++
          (stringifyMembers indent ms ++ (gap ++ 125 :: rest)))))) =
          some ((k, v) :: ms, rest)) := by
  induction fuel with
  | zero =>
    refine ⟨?_, ?_, ?_⟩
    · intro v _ _ _ _ _ hf
      have := fuelNeed_pos v
      omega
    · intro v vs _ _ _ _ _ _ _ _ hf
      omega
    · intro k v ms _ _ _ _ _ _ _ _ hf
      omega
  | succ f ih =>
    obtain ⟨ihValue, ihItems, ihMembers⟩ := ih
    refine ⟨?_, ?_, ?_⟩
    · intro v hn indent ws rest hws hf
      cases v with
      | null =>
        refine parseValue_null f _ rest ?_
        rw [skipSpace_append _ _ hws]
        simp only [stringifyValue, show js "null" = [110, 117, 108, 108] by decide,
          List.cons_append, List.nil_append]
        exact skipSpace_cons _ _ (by decide)
      | bool b =>
        cases b
        · refine parseValue_false f _ rest ?_
          rw [skipSpace_append _ _ hws]
          simp only [stringifyValue, show js "false" = [102, 97, 108, 115, 101] by decide,
            List.cons_append, List.nil_append]
          exact skipSpace_cons _ _ (by decide)
        · refine parseValue_true f _ rest ?_
          rw [skipSpace_append _ _ hws]
          simp only [stringifyValue, show js "true" = [116, 114, 117, 101] by decide,
            List.cons_append, List.nil_append]
          exact skipSpace_cons _ _ (by decide)
      | number literal => simp [JsonValue.plain] at hn
      | string s =>
        have hskip : skipSpace (ws ++ (stringifyValue indent (.string s) ++ rest)) =
            34 :: (quoteUnits s ++ 34 :: rest) := by
          rw [skipSpace_append _ _ hws]
          simp only [stringifyValue, quote_append]
          exact skipSpace_cons _ _ (by decide)
        rw [parseValue_string f _ _ hskip, parseStringBody_quoteUnits]
        rfl
      | array items =>
        cases items with
        | nil =>
          refine parseValue_array_empty f _ (93 :: rest) rest ?_ (skipSpace_cons _ _ (by decide))
          rw [skipSpace_append _ _ hws]
          simp only [stringifyValue, show js "[]" = [91, 93] by decide, List.cons_append,
            List.nil_append]
          exact skipSpace_cons _ _ (by decide)
        | cons v vs =>
          have hnv : v.plain = true ∧ JsonValue.itemsPlain vs = true := by
            simpa [JsonValue.plain, JsonValue.itemsPlain] using hn
          have hfuel : 1 + v.fuelNeed + JsonValue.itemsFuelNeed vs ≤ f := by
            simp only [JsonValue.fuelNeed, JsonValue.itemsFuelNeed] at hf
            omega
          rw [stringifyValue_array_cons]
          have hskip : skipSpace (ws ++ 91 :: ((10 :: spaces (indent + 2)) ++
              (stringifyValue (indent + 2) v ++ (stringifyItems (indent + 2) vs ++
                ((10 :: spaces indent) ++ 93 :: rest))))) =
              91 :: ((10 :: spaces (indent + 2)) ++ (stringifyValue (indent + 2) v ++
                (stringifyItems (indent + 2) vs ++ ((10 :: spaces indent) ++ 93 :: rest)))) := by
            rw [skipSpace_append _ _ hws]
            exact skipSpace_cons _ _ (by decide)
          obtain ⟨d, t, hd, h93, _⟩ := skipSpace_to_value (indent + 2) v hnv.1
            (10 :: spaces (indent + 2))
            (stringifyItems (indent + 2) vs ++ ((10 :: spaces indent) ++ 93 :: rest))
            (newline_spaces_space _)
          rw [parseValue_array_items f _ _ t d hskip hd h93,
            ihItems v vs hnv.1 hnv.2 (indent + 2) (10 :: spaces (indent + 2))
              (10 :: spaces indent) rest (newline_spaces_space _) (newline_spaces_space _) hfuel]
          rfl
      | object members =>
        cases members with
        | nil =>
          refine parseValue_object_empty f _ (125 :: rest) rest ?_
            (skipSpace_cons _ _ (by decide))
          rw [skipSpace_append _ _ hws]
          simp only [stringifyValue, show js "\x7b\x7d" = [123, 125] by decide, List.cons_append,
            List.nil_append]
          exact skipSpace_cons _ _ (by decide)
        | cons m ms =>
          obtain ⟨k, v⟩ := m
          have hkeys := (plain_object_cons k v ms hn).1
          have hnv : v.plain = true ∧ JsonValue.membersPlain ms = true :=
            (plain_object_cons k v ms hn).2
          have hfuel : 1 + v.fuelNeed + JsonValue.membersFuelNeed ms ≤ f := by
            simp only [JsonValue.fuelNeed, JsonValue.membersFuelNeed] at hf
            omega
          rw [stringifyValue_object_cons]
          have hskip : skipSpace (ws ++ 123 :: ((10 :: spaces (indent + 2)) ++
              (quote k ++ (58 :: 32 :: (stringifyValue (indent + 2) v ++
                (stringifyMembers (indent + 2) ms ++
                  ((10 :: spaces indent) ++ 125 :: rest))))))) =
              123 :: ((10 :: spaces (indent + 2)) ++ (quote k ++ (58 :: 32 ::
                (stringifyValue (indent + 2) v ++ (stringifyMembers (indent + 2) ms ++
                  ((10 :: spaces indent) ++ 125 :: rest)))))) := by
            rw [skipSpace_append _ _ hws]
            exact skipSpace_cons _ _ (by decide)
          have hd : skipSpace ((10 :: spaces (indent + 2)) ++ (quote k ++ (58 :: 32 ::
              (stringifyValue (indent + 2) v ++ (stringifyMembers (indent + 2) ms ++
                ((10 :: spaces indent) ++ 125 :: rest)))))) =
              34 :: (quoteUnits k ++ 34 :: (58 :: 32 ::
                (stringifyValue (indent + 2) v ++ (stringifyMembers (indent + 2) ms ++
                  ((10 :: spaces indent) ++ 125 :: rest))))) := by
            rw [skipSpace_append _ _ (newline_spaces_space _), quote_append]
            exact skipSpace_cons _ _ (by decide)
          rw [parseValue_object_members f _ _ _ 34 hskip hd (by decide),
            ihMembers k v ms hnv.1 hnv.2 (indent + 2) (10 :: spaces (indent + 2))
              (10 :: spaces indent) rest (newline_spaces_space _) (newline_spaces_space _) hfuel]
          simp only [Option.map_some', normalizeMembers_nodup _ hkeys]
    · intro v vs hv hvs indent ws gap rest hws hgap hf
      cases vs with
      | nil =>
        have hpv := ihValue v hv indent ws (gap ++ 93 :: rest) hws
          (by simp only [JsonValue.itemsFuelNeed] at hf; omega)
        simp only [stringifyItems, List.nil_append]
        refine parseItems_last f _ _ rest v hpv ?_
        rw [skipSpace_append _ _ hgap]
        exact skipSpace_cons _ _ (by decide)
      | cons w more =>
        have hnw : w.plain = true ∧ JsonValue.itemsPlain more = true := by
          simpa [JsonValue.itemsPlain] using hvs
        simp only [JsonValue.itemsFuelNeed] at hf
        rw [stringifyItems_cons]
        have hpv := ihValue v hv indent ws
          (44 :: ((10 :: spaces indent) ++ (stringifyValue indent w ++
            (stringifyItems indent more ++ (gap ++ 93 :: rest))))) hws (by omega)
        rw [parseItems_more f _ _ _ v hpv (skipSpace_cons _ _ (by decide)),
          ihItems w more hnw.1 hnw.2 indent (10 :: spaces indent) gap rest
            (newline_spaces_space _) hgap (by omega)]
        rfl
    · intro k v ms hv hvs indent ws gap rest hws hgap hf
      have hskip : ∀ tail : JsString, skipSpace (ws ++ (quote k ++ tail)) =
          34 :: (quoteUnits k ++ 34 :: tail) := by
        intro tail
        rw [skipSpace_append _ _ hws, quote_append]
        exact skipSpace_cons _ _ (by decide)
      cases ms with
      | nil =>
        have hpv := ihValue v hv indent [32]
          (stringifyMembers indent [] ++ (gap ++ 125 :: rest)) (by decide)
          (by simp only [JsonValue.membersFuelNeed] at hf; omega)
        refine parseMembers_last f _ _ _ _ _ rest k v (hskip _) (parseStringBody_quoteUnits k _)
          (skipSpace_cons _ _ (by decide)) hpv ?_
        simp only [stringifyMembers, List.nil_append]
        rw [skipSpace_append _ _ hgap]
        exact skipSpace_cons _ _ (by decide)
      | cons m more =>
        obtain ⟨k2, v2⟩ := m
        have hnw : v2.plain = true ∧ JsonValue.membersPlain more = true := by
          simpa [JsonValue.membersPlain] using hvs
        simp only [JsonValue.membersFuelNeed] at hf
        rw [stringifyMembers_cons]
        have hpv := ihValue v hv indent [32]
          (44 :: ((10 :: spaces indent) ++ (quote k2 ++ (58 :: 32 ::
            (stringifyValue indent v2 ++
              (stringifyMembers indent more ++ (gap ++ 125 :: rest))))))) (by decide) (by omega)
        refine (parseMembers_more f _ _ _ _ _ _ k v (hskip _) (parseStringBody_quoteUnits k _)
          (skipSpace_cons _ _ (by decide)) hpv (skipSpace_cons _ _ (by decide))).trans ?_
        rw [ihMembers k2 v2 more hnw.1 hnw.2 indent (10 :: spaces indent) gap rest
          (newline_spaces_space _) hgap (by omega)]
        rfl


/-! ### The fuel of `parseJson` suffices -/

theorem quote_length (s : JsString) : 2 ≤ (quote s).length := by
  simp [quote]

/-- The fuel a printed value needs is at most the length of its text. -/
theorem fuelNeed_le_length (n : Nat) :
    (∀ (v : JsonValue) (indent : Nat), v.plain = true → v.fuelNeed ≤ n →
      v.fuelNeed ≤ (stringifyValue indent v).length) ∧
    (∀ (vs : List JsonValue) (indent : Nat), JsonValue.itemsPlain vs = true →
      JsonValue.itemsFuelNeed vs ≤ n →
      JsonValue.itemsFuelNeed vs ≤ (stringifyItems indent vs).length) ∧
    (∀ (ms : List (JsString × JsonValue)) (indent : Nat),
      JsonValue.membersPlain ms = true → JsonValue.membersFuelNeed ms ≤ n →
      JsonValue.membersFuelNeed ms ≤ (stringifyMembers indent ms).length) := by
  induction n with
  | zero =>
    refine ⟨?_, ?_, ?_⟩
    · intro v indent _ h
      have := fuelNeed_pos v
      omega
    · intro vs indent _ h
      omega
    · intro ms indent _ h
      omega
  | succ n ih =>
    obtain ⟨ihValue, ihItems, ihMembers⟩ := ih
    refine ⟨?_, ?_, ?_⟩
    · intro v indent hn h
      cases v with
      | null => simp [JsonValue.fuelNeed, stringifyValue, show js "null" = [110, 117, 108, 108] by decide]
      | bool b =>
        cases b <;>
          simp [JsonValue.fuelNeed, stringifyValue,
            show js "true" = [116, 114, 117, 101] by decide,
            show js "false" = [102, 97, 108, 115, 101] by decide]
      | number literal => simp [JsonValue.plain] at hn
      | string s =>
        have := quote_length s
        simp only [JsonValue.fuelNeed, stringifyValue]
        omega
      | array items =>
        cases items with
        | nil => simp [JsonValue.fuelNeed, JsonValue.itemsFuelNeed, stringifyValue,
            show js "[]" = [91, 93] by decide]
        | cons a as =>
          have hna : a.plain = true ∧ JsonValue.itemsPlain as = true := by
            simpa [JsonValue.plain, JsonValue.itemsPlain] using hn
          simp only [JsonValue.fuelNeed, JsonValue.itemsFuelNeed] at h ⊢
          have h1 := ihValue a (indent + 2) hna.1 (by omega)
          have h2 := ihItems as (indent + 2) hna.2 (by omega)
          have hlen := congrArg List.length (stringifyValue_array_cons indent a as [])
          simp only [List.append_nil, List.length_cons, List.length_append] at hlen
          omega
      | object members =>
        cases members with
        | nil => simp [JsonValue.fuelNeed, JsonValue.membersFuelNeed, stringifyValue,
            show js "\x7b\x7d" = [123, 125] by decide]
        | cons m ms =>
          obtain ⟨k, w⟩ := m
          have hna : w.plain = true ∧ JsonValue.membersPlain ms = true :=
            (plain_object_cons k w ms hn).2
          simp only [JsonValue.fuelNeed, JsonValue.membersFuelNeed] at h ⊢
          have h1 := ihValue w (indent + 2) hna.1 (by omega)
          have h2 := ihMembers ms (indent + 2) hna.2 (by omega)
          have hlen := congrArg List.length (stringifyValue_object_cons indent k w ms [])
          simp only [List.append_nil, List.length_cons, List.length_append] at hlen
          omega
    · intro vs indent hn h
      cases vs with
      | nil => simp [JsonValue.itemsFuelNeed]
      | cons a as =>
        have hna : a.plain = true ∧ JsonValue.itemsPlain as = true := by
          simpa [JsonValue.itemsPlain] using hn
        simp only [JsonValue.itemsFuelNeed] at h ⊢
        have h1 := ihValue a indent hna.1 (by omega)
        have h2 := ihItems as indent hna.2 (by omega)
        have hlen := congrArg List.length (stringifyItems_cons indent a as [])
        simp only [List.append_nil, List.length_cons, List.length_append] at hlen
        omega
    · intro ms indent hn h
      cases ms with
      | nil => simp [JsonValue.membersFuelNeed]
      | cons m more =>
        obtain ⟨k, w⟩ := m
        have hna : w.plain = true ∧ JsonValue.membersPlain more = true := by
          simpa [JsonValue.membersPlain] using hn
        simp only [JsonValue.membersFuelNeed] at h ⊢
        have h1 := ihValue w indent hna.1 (by omega)
        have h2 := ihMembers more indent hna.2 (by omega)
        have hlen := congrArg List.length (stringifyMembers_cons indent k w more [])
        simp only [List.append_nil, List.length_cons, List.length_append] at hlen
        omega


/-- `JSON.parse` reads back what `JSON.stringify` printed for a plain value. -/
theorem parseJson_stringifyValue (v : JsonValue) (h : v.plain = true) :
    parseJson (stringifyValue 0 v) = some v := by
  have hfuel : v.fuelNeed ≤ 2 * (stringifyValue 0 v).length + 2 := by
    have := (fuelNeed_le_length v.fuelNeed).1 v 0 h (le_refl _)
    omega
  have hp := (parse_stringify (2 * (stringifyValue 0 v).length + 2)).1 v h 0 [] [] (by simp) hfuel
  simp only [List.nil_append, List.append_nil] at hp
  simp [parseJson, hp, skipSpace]

/-! ## Lemmas on strings -/

theorem all_dropWhile_iff (p : Nat → Bool) (s : List Nat) :
    (∀ c ∈ s.dropWhile p, p c = true) ↔ ∀ c ∈ s, p c = true := by
  induction s with
  | nil => simp
  | cons a t ih =>
    by_cases h : p a = true
    · simp [List.dropWhile_cons, h, ih]
    · simp [List.dropWhile_cons, h]

/-- Trimming leaves nothing exactly when every code unit is white space. -/
theorem trim_eq_nil_iff (s : JsString) : trim s = [] ↔ ∀ c ∈ s, isWhiteSpace c = true := by
  unfold trim
  rw [List.reverse_eq_nil_iff, List.dropWhile_eq_nil_iff]
  simp only [List.mem_reverse]
  exact all_dropWhile_iff isWhiteSpace s

theorem includes_iff (s needle : JsString) : includes s needle = true ↔ needle <:+: s := by
  unfold includes
  simp only [List.any_eq_true, List.mem_tails, List.isPrefixOf_iff_prefix]
  constructor
  · rintro ⟨t, ht, hp⟩
    exact List.IsInfix.trans hp.isInfix ht.isInfix
  · rintro ⟨a, b, h⟩
    exact ⟨needle ++ b, ⟨a, by simpa using h⟩, List.prefix_append _ _⟩

@[simp] theorem truthy_str (s : JsString) : (JsVal.str s).truthy = !s.isEmpty := rfl

@[simp] theorem isString_str (s : JsString) : (JsVal.str s).isString = true := rfl

@[simp] theorem callTrim_str (s : JsString) : (JsVal.str s).callTrim = .ok (trim s) := rfl

@[simp] theorem lengthGt_str (s : JsString) (n : Nat) :
    (JsVal.str s).lengthGt n = decide (n < s.length) := rfl

/-- The violations of a string message, rule by rule. -/
theorem validateChatInput_str (m : JsString) (aiModel : JsVal) :
    validateChatInput (.str m) aiModel =
      .ok ((if m = [] then [js "Message is required"] else []) ++
        (if m ≠ [] ∧ trim m = [] then [js "Message cannot be empty"] else []) ++
        (if 2000 < m.length then [js "Message is too long (max 2000 characters)"] else []) ++
        (if aiModel.truthy = true ∧ aiModel.isString = false then
          [js "AI model must be a string"] else [])) := by
  unfold validateChatInput
  generalize aiModel.truthy = ta
  generalize aiModel.isString = sa
  cases m with
  | nil => cases ta <;> cases sa <;> simp
  | cons a t =>
    by_cases hb : trim (a :: t) = [] <;> by_cases hl : 2000 < (a :: t).length <;>
      cases ta <;> cases sa <;> simp_all [Except.map] <;>
      (split_ifs <;> rfl)

@[simp] theorem convertsToString_str (s : JsString) : (JsVal.str s).convertsToString = true := by
  simp [JsVal.convertsToString]

/-- The log line of line 129 does not throw for a falsy chatId. -/
theorem logLine_falsy (chatId : JsVal) (h : chatId.truthy = false) :
    (chatId.orElse (.str (js "Yangi suhbat"))).convertsToString = true := by
  simp [JsVal.orElse, h]

/-- The log line of line 129 does not throw for a string chatId. -/
theorem logLine_str (s : JsString) :
    ((JsVal.str s).orElse (.str (js "Yangi suhbat"))).convertsToString = true := by
  unfold JsVal.orElse
  split <;> simp

/-- The log line of line 129 does not throw for a chatId that resolves. -/
theorem logLine_resolved (chats : List ChatSession) (chatId : JsVal)
    (p : Option ChatSession × List HistoryEntry) (h : resolveChat chats chatId = .ok p) :
    (chatId.orElse (.str (js "Yangi suhbat"))).convertsToString = true := by
  by_cases ht : chatId.truthy = true
  · unfold resolveChat at h
    rw [if_pos ht] at h
    cases hf : findChat chats chatId with
    | none => simp [hf] at h
    | some found =>
      have hid : JsVal.strictEqStr found.id chatId = true := by
        simpa using List.find?_some hf
      cases chatId with
      | str t => exact logLine_str t
      | undefined => simp [JsVal.strictEqStr] at hid
      | null => simp [JsVal.strictEqStr] at hid
      | bool b => simp [JsVal.strictEqStr] at hid
      | num n => simp [JsVal.strictEqStr] at hid
      | arr items => simp [JsVal.strictEqStr] at hid
      | obj fields => simp [JsVal.strictEqStr] at hid
  · exact logLine_falsy chatId (by simpa using ht)

/-! ## The history projection -/

/-- C1: the history projection used by POST /api/chat returns a sequence of the
same length as the stored messages; its i-th element carries the i-th stored
content as its only text, with role model for a stored assistant message and
role user for a stored user message; the empty sequence projects to the empty
sequence, a found session is resolved to the projection of its messages, and
the projection of [user "a", assistant "b"] is [user "a", model "b"]. -/
theorem conversationHistory_projection (msgs : List Message) (t₁ t₂ : JsString) :
    (conversationHistory msgs).length = msgs.length ∧
    (∀ (i : Nat) (m : Message), msgs[i]? = some m →
      ∃ h, (conversationHistory msgs)[i]? = some h ∧ h.parts = [⟨m.content⟩] ∧
        (m.role = js "assistant" → h.role = js "model") ∧
        (m.role = js "user" → h.role = js "user")) ∧
    conversationHistory [] = [] ∧
    (∀ (chats : List ChatSession) (chatId : JsVal) (c : ChatSession),
      chatId.truthy = true → findChat chats chatId = some c →
        resolveChat chats chatId = .ok (some c, conversationHistory c.messages)) ∧
    conversationHistory [⟨js "user", js "a", t₁⟩, ⟨js "assistant", js "b", t₂⟩] =
      [⟨js "user", [⟨js "a"⟩]⟩, ⟨js "model", [⟨js "b"⟩]⟩] := by
  refine ⟨by simp [conversationHistory], ?_, rfl, ?_, ?_⟩
  · intro i m hm
    refine ⟨⟨if m.role = js "assistant" then js "model" else js "user", [⟨m.content⟩]⟩,
      by simp [conversationHistory, hm], rfl, ?_, ?_⟩
    · intro hr
      simp [hr]
    · intro hr
      have hne : js "user" ≠ js "assistant" := by decide
      simp [hr, hne]
  · intro chats chatId c ht hf
    simp [resolveChat, ht, hf]
  · have hne : js "user" ≠ js "assistant" := by decide
    simp [conversationHistory, hne]

/-- Witness of C1 on a stored exchange: the second element of the projection. -/
theorem conversationHistory_projection_witness :
    [(⟨js "user", js "a", js "t"⟩ : Message), ⟨js "assistant", js "b", js "t"⟩][1]? =
        some ⟨js "assistant", js "b", js "t"⟩ ∧
      ∃ h, (conversationHistory
          [⟨js "user", js "a", js "t"⟩, ⟨js "assistant", js "b", js "t"⟩])[1]? = some h ∧
        h.parts = [⟨js "b"⟩] ∧
        (js "assistant" = js "assistant" → h.role = js "model") ∧
        (js "assistant" = js "user" → h.role = js "user") :=
  ⟨rfl, (conversationHistory_projection
    [⟨js "user", js "a", js "t"⟩, ⟨js "assistant", js "b", js "t"⟩] [] []).2.1 1
    ⟨js "assistant", js "b", js "t"⟩ rfl⟩

/-! ## Validation -/

/-- C5: with a string message and no aiModel, validateChatInput returns the
empty violation list exactly when the message has a code unit that is not
white space and has at most 2000 code units; a message of 2001 code units gets
the length violation, a message that is empty or all white space gets a
non-empty list, 2000 letters pass and 2001 letters get exactly the length
violation. -/
theorem validateChatInput_message_rule (message : JsString) :
    (validateChatInput (.str message) .undefined = .ok [] ↔
      (∃ c ∈ message, isWhiteSpace c = false) ∧ message.length ≤ 2000) ∧
    (message.length = 2001 →
      ∃ errs, validateChatInput (.str message) .undefined = .ok errs ∧
        js "Message is too long (max 2000 characters)" ∈ errs) ∧
    ((∀ c ∈ message, isWhiteSpace c = true) →
      ∃ errs, validateChatInput (.str message) .undefined = .ok errs ∧ errs ≠ []) ∧
    validateChatInput (.str (List.replicate 2000 97)) .undefined = .ok [] ∧
    validateChatInput (.str (List.replicate 2001 97)) .undefined =
      .ok [js "Message is too long (max 2000 characters)"] := by
  have hws : ∀ s : JsString, s ≠ [] → ((∃ c ∈ s, isWhiteSpace c = false) ↔ trim s ≠ []) := by
    intro s _
    rw [Ne, trim_eq_nil_iff]
    simp
  have hrep : ∀ n : Nat, 0 < n →
      validateChatInput (.str (List.replicate n 97)) .undefined =
        .ok (if 2000 < n then [js "Message is too long (max 2000 characters)"] else []) := by
    intro n hn
    have hne : List.replicate n 97 ≠ ([] : List Nat) := by
      simp [List.replicate_eq_nil_iff]
      omega
    have htrim : trim (List.replicate n 97) ≠ [] := by
      intro h
      rw [trim_eq_nil_iff] at h
      have := h 97 (by simp [List.mem_replicate]; omega)
      simp [isWhiteSpace] at this
    rw [validateChatInput_str]
    simp [hne, htrim, JsVal.truthy]
  refine ⟨?_, ?_, ?_, ?_, ?_⟩
  · rw [validateChatInput_str]
    by_cases hm : message = []
    · subst hm
      simp [JsVal.truthy]
    · rw [hws message hm]
      by_cases ht : trim message = [] <;> by_cases hl : 2000 < message.length <;>
        simp [hm, ht, hl, JsVal.truthy]
      omega
  · intro hl
    refine ⟨_, validateChatInput_str message _, ?_⟩
    simp [hl]
  · intro hall
    refine ⟨_, validateChatInput_str message _, ?_⟩
    have ht : trim message = [] := (trim_eq_nil_iff message).2 hall
    by_cases hm : message = [] <;> simp [hm, ht]
  · exact (hrep 2000 (by omega)).trans (by rw [if_neg (by omega)])
  · exact (hrep 2001 (by omega)).trans (by rw [if_pos (by omega)])

/-- Witness of C5: a white-space-only message has a non-empty violation list. -/
theorem validateChatInput_message_rule_witness :
    (∀ c ∈ [32, 9], isWhiteSpace c = true) ∧
      ∃ errs, validateChatInput (.str [32, 9]) .undefined = .ok errs ∧ errs ≠ [] :=
  ⟨by decide, (validateChatInput_message_rule [32, 9]).2.2.1 (by decide)⟩

/-- The violations of a falsy message that is not a string. -/
theorem validateChatInput_falsy (message aiModel : JsVal)
    (hm : message.truthy = false) (hs : message.isString = false) :
    validateChatInput message aiModel =
      .ok ([js "Message is required", js "Message must be a string"] ++
        (if aiModel.truthy = true ∧ aiModel.isString = false then
          [js "AI model must be a string"] else [])) := by
  unfold validateChatInput
  rw [hm, hs]
  generalize aiModel.truthy = ta
  generalize aiModel.isString = sa
  cases ta <;> cases sa <;> simp

theorem errorStatus_trim_typeError :
    errorStatus (js "message.trim is not a function") = (500, js "Internal server error") := by
  decide

/-- C6: a numeric message makes validateChatInput throw at the trim call after
it has recorded the type violation, and POST /api/chat answers 500 Internal
server error without writing, not 400 Validation failed; true, an array and an
object behave the same, while the falsy numeric message 0 is listed as a
violation. -/
theorem postChat_numeric_message_status (env : Env) (chats : List ChatSession)
    (aiModel chatId : JsVal) :
    validateChatInput (.num 123) aiModel = .error (js "message.trim is not a function") ∧
    (postChat env chats ⟨.num 123, aiModel, chatId⟩).response.status = 500 ∧
    (postChat env chats ⟨.num 123, aiModel, chatId⟩).response.body =
      .failure (js "Internal server error") none (some env.responseTime)
        (some (substringFrom env.randomRequest 7)) ∧
    (postChat env chats ⟨.num 123, aiModel, chatId⟩).written = none ∧
    validateChatInput (.bool true) aiModel = .error (js "message.trim is not a function") ∧
    validateChatInput (.arr []) aiModel = .error (js "message.trim is not a function") ∧
    validateChatInput (.obj []) aiModel = .error (js "message.trim is not a function") ∧
    validateChatInput (.num 0) .undefined =
      .ok [js "Message is required", js "Message must be a string"] := by
  have hv : validateChatInput (.num 123) aiModel =
      .error (js "message.trim is not a function") := by
    simp [validateChatInput, JsVal.truthy, JsVal.callTrim, Except.map]
  refine ⟨hv, ?_, ?_, ?_, ?_, ?_, ?_, ?_⟩
  · simp [postChat, hv, catchResponse, errorStatus_trim_typeError]
  · simp [postChat, hv, catchResponse, errorStatus_trim_typeError]
  · simp [postChat, hv]
  · simp [validateChatInput, JsVal.truthy, JsVal.callTrim, Except.map]
  · simp [validateChatInput, JsVal.truthy, JsVal.callTrim, Except.map]
  · simp [validateChatInput, JsVal.truthy, JsVal.callTrim, Except.map]
  · simp [validateChatInput, JsVal.truthy, JsVal.isString]

/-- C7 as stated fails: with a valid message, the aiModel values 0, false, null
and the empty string are present and not flagged; validation returns no
violation. -/
theorem validateChatInput_falsy_aiModel_accepted :
    validateChatInput (.str (js "hi")) (.num 0) = .ok [] ∧
    validateChatInput (.str (js "hi")) (.bool false) = .ok [] ∧
    validateChatInput (.str (js "hi")) .null = .ok [] := by
  refine ⟨?_, ?_, ?_⟩ <;> rfl

/-- C7, amended: for every aiModel that is truthy and not a string, and every
message that is a string or falsy, validateChatInput returns a list containing
the aiModel violation, and POST /api/chat answers 400 Validation failed with
that list as details and writes nothing. -/
theorem validateChatInput_truthy_aiModel (env : Env) (chats : List ChatSession)
    (message aiModel chatId : JsVal)
    (hm : message.isString = true ∨ message.truthy = false)
    (ht : aiModel.truthy = true) (hs : aiModel.isString = false) :
    ∃ errs, validateChatInput message aiModel = .ok errs ∧
      js "AI model must be a string" ∈ errs ∧
      (postChat env chats ⟨message, aiModel, chatId⟩).response.status = 400 ∧
      (postChat env chats ⟨message, aiModel, chatId⟩).response.body =
        .failure (js "Validation failed") (some errs) none none ∧
      (postChat env chats ⟨message, aiModel, chatId⟩).written = none := by
  have hv : ∃ errs, validateChatInput message aiModel = .ok errs ∧
      js "AI model must be a string" ∈ errs := by
    cases message with
    | str m => exact ⟨_, validateChatInput_str m aiModel, by simp [ht, hs]⟩
    | undefined =>
      exact ⟨_, validateChatInput_falsy _ aiModel rfl rfl, by simp [ht, hs]⟩
    | null =>
      exact ⟨_, validateChatInput_falsy _ aiModel rfl rfl, by simp [ht, hs]⟩
    | bool b =>
      have hb : (JsVal.bool b).truthy = false := by simpa [JsVal.isString] using hm
      exact ⟨_, validateChatInput_falsy _ aiModel hb rfl, by simp [ht, hs]⟩
    | num n =>
      have hn : (JsVal.num n).truthy = false := by simpa [JsVal.isString] using hm
      exact ⟨_, validateChatInput_falsy _ aiModel hn rfl, by simp [ht, hs]⟩
    | arr items => simp [JsVal.truthy, JsVal.isString] at hm
    | obj fields => simp [JsVal.truthy, JsVal.isString] at hm
  obtain ⟨errs, he, hmem⟩ := hv
  have hpos : 0 < errs.length := List.length_pos_of_mem hmem
  refine ⟨errs, he, hmem, ?_, ?_, ?_⟩ <;> simp [postChat, he, hpos]

/-- Witness of C7 amended: the message "hi" with the numeric aiModel 7. -/
theorem validateChatInput_truthy_aiModel_witness :
    ∃ errs, validateChatInput (.str (js "hi")) (.num 7) = .ok errs ∧
      js "AI model must be a string" ∈ errs ∧
      (postChat ⟨fun _ => .ok [], none, [], [], [], [], [], []⟩ []
        ⟨.str (js "hi"), .num 7, .undefined⟩).response.status = 400 ∧
      (postChat ⟨fun _ => .ok [], none, [], [], [], [], [], []⟩ []
        ⟨.str (js "hi"), .num 7, .undefined⟩).response.body =
        .failure (js "Validation failed") (some errs) none none ∧
      (postChat ⟨fun _ => .ok [], none, [], [], [], [], [], []⟩ []
        ⟨.str (js "hi"), .num 7, .undefined⟩).written = none :=
  validateChatInput_truthy_aiModel ⟨fun _ => .ok [], none, [], [], [], [], [], []⟩ []
    (.str (js "hi")) (.num 7) .undefined (Or.inl rfl) rfl rfl

/-- C8: for a string message and any aiModel, validateChatInput returns a list
that contains the length violation exactly when the message has more than 2000
code units, the emptiness violation exactly when the message is non-empty and
all white space, and the aiModel violation exactly when aiModel is truthy and
not a string, each whatever the other rules say; 2001 spaces with the numeric
aiModel 1 yield all three. -/
theorem validateChatInput_lists_every_violation (message : JsString) (aiModel : JsVal) :
    (∃ errs, validateChatInput (.str message) aiModel = .ok errs ∧
      (js "Message is too long (max 2000 characters)" ∈ errs ↔ 2000 < message.length) ∧
      (js "Message cannot be empty" ∈ errs ↔
        message ≠ [] ∧ ∀ c ∈ message, isWhiteSpace c = true) ∧
      (js "AI model must be a string" ∈ errs ↔
        aiModel.truthy = true ∧ aiModel.isString = false)) ∧
    validateChatInput (.str (List.replicate 2001 32)) (.num 1) =
      .ok [js "Message cannot be empty", js "Message is too long (max 2000 characters)",
        js "AI model must be a string"] := by
  have h1 : js "Message is too long (max 2000 characters)" ≠ js "Message is required" := by
    decide
  have h2 : js "Message is too long (max 2000 characters)" ≠ js "Message cannot be empty" := by
    decide
  have h3 : js "Message is too long (max 2000 characters)" ≠ js "AI model must be a string" := by
    decide
  have h4 : js "Message cannot be empty" ≠ js "Message is required" := by decide
  have h5 : js "Message cannot be empty" ≠ js "AI model must be a string" := by decide
  have h6 : js "AI model must be a string" ≠ js "Message is required" := by decide
  constructor
  · refine ⟨_, validateChatInput_str message aiModel, ?_, ?_, ?_⟩
    · by_cases hm : message = [] <;> by_cases hb : trim message = [] <;>
        by_cases hl : 2000 < message.length <;>
        by_cases ha : aiModel.truthy = true ∧ aiModel.isString = false <;>
        simp [hm, hb, hl, ha, h1, h2, h3]
    · rw [← trim_eq_nil_iff]
      by_cases hm : message = [] <;> by_cases hb : trim message = [] <;>
        by_cases hl : 2000 < message.length <;>
        by_cases ha : aiModel.truthy = true ∧ aiModel.isString = false <;>
        simp [hm, hb, hl, ha, h2.symm, h4, h5]
    · by_cases hm : message = [] <;> by_cases hb : trim message = [] <;>
        by_cases hl : 2000 < message.length <;>
        by_cases ha : aiModel.truthy = true ∧ aiModel.isString = false <;>
        simp [hm, hb, hl, ha, h3.symm, h5.symm, h6]
  · have hne : ∀ n : Nat, 0 < n → List.replicate n 32 ≠ ([] : List Nat) := by
      intro n hn
      simp [List.replicate_eq_nil_iff]
      omega
    have htrim : ∀ n : Nat, trim (List.replicate n 32) = [] := by
      intro n
      rw [trim_eq_nil_iff]
      intro c hc
      rw [List.eq_of_mem_replicate hc]
      decide
    have hall : ∀ n : Nat, 2000 < n →
        validateChatInput (.str (List.replicate n 32)) (.num 1) =
          .ok [js "Message cannot be empty", js "Message is too long (max 2000 characters)",
            js "AI model must be a string"] := by
      intro n hn
      rw [validateChatInput_str]
      simp [hne n (by omega), htrim n, hn, JsVal.truthy, JsVal.isString]
    exact hall 2001 (by omega)

/-! ## The failure-to-status mapping -/

/-- C9: the status of the catch block of POST /api/chat is chosen from the
text of the failure by the first rule that matches: 401 if it contains
"API key", otherwise 408 if it contains "timeout", otherwise 429 if it contains
"quota", otherwise 404 if it contains "Chat ID not found", otherwise 500; this is
the status of the response when the model call of a valid request fails with
that text. -/
theorem catchResponse_status_first_match (env : Env) (text : JsString) :
    (js "API key" <:+: text → (catchResponse env text).status = 401) ∧
    (¬ js "API key" <:+: text → js "timeout" <:+: text →
      (catchResponse env text).status = 408) ∧
    (¬ js "API key" <:+: text → ¬ js "timeout" <:+: text → js "quota" <:+: text →
      (catchResponse env text).status = 429) ∧
    (¬ js "API key" <:+: text → ¬ js "timeout" <:+: text → ¬ js "quota" <:+: text →
      js "Chat ID not found" <:+: text → (catchResponse env text).status = 404) ∧
    (¬ js "API key" <:+: text → ¬ js "timeout" <:+: text → ¬ js "quota" <:+: text →
      ¬ js "Chat ID not found" <:+: text → (catchResponse env text).status = 500) ∧
    (∀ (chats : List ChatSession) (m : JsString) (aiModel : JsVal),
      validateChatInput (.str m) aiModel = .ok [] →
      env.callModel (.generateContent (trim m)) = .error text →
      (postChat env chats ⟨.str m, aiModel, .undefined⟩).response = catchResponse env text) := by
  refine ⟨?_, ?_, ?_, ?_, ?_, ?_⟩
  · intro h1
    simp [catchResponse, errorStatus, includes_iff, h1]
  · intro h1 h2
    simp [catchResponse, errorStatus, includes_iff, h1, h2]
  · intro h1 h2 h3
    simp [catchResponse, errorStatus, includes_iff, h1, h2, h3]
  · intro h1 h2 h3 h4
    simp [catchResponse, errorStatus, includes_iff, h1, h2, h3, h4]
  · intro h1 h2 h3 h4
    simp [catchResponse, errorStatus, includes_iff, h1, h2, h3, h4]
  · intro chats m aiModel hv hcall
    simp [postChat, hv, resolveChat, JsVal.truthy, JsVal.orElse, hcall]

/-- Witness of C9: a text with both "quota" and "timeout" is classified by the
earlier rule, 408. -/
theorem catchResponse_status_first_match_witness :
    (¬ js "API key" <:+: js "quota check hit a timeout") ∧
      js "timeout" <:+: js "quota check hit a timeout" ∧
      (catchResponse (replyEnv []) (js "quota check hit a timeout")).status = 408 :=
  ⟨by decide, by decide,
    (catchResponse_status_first_match (replyEnv []) (js "quota check hit a timeout")).2.1
      (by decide) (by decide)⟩

/-! ## Deletion -/

/-- C10: when no session of the store has the id, DELETE /api/chat/:id filters
nothing out, answers 404 Chat not found and does not call writeChats. -/
theorem deleteChat_unknown_id (env : Env) (chats : List ChatSession) (id : JsString)
    (h : ∀ c ∈ chats, c.id ≠ id) :
    (deleteChat env chats id).response.status = 404 ∧
    (deleteChat env chats id).response.body =
      .failure (js "Chat not found") none (some env.responseTime) none ∧
    (deleteChat env chats id).written = none ∧
    chats.filter (fun chat => chat.id != id) = chats := by
  have hf : chats.filter (fun chat => chat.id != id) = chats := by
    rw [List.filter_eq_self]
    intro c hc
    simpa using h c hc
  simp [deleteChat, hf]

/-- Witness of C10: deleting the id "zzz" from a store holding only "abc". -/
theorem deleteChat_unknown_id_witness :
    (∀ c ∈ [(⟨js "abc", js "Hello", [], js "t"⟩ : ChatSession)], c.id ≠ js "zzz") ∧
      (deleteChat (replyEnv []) [⟨js "abc", js "Hello", [], js "t"⟩] (js "zzz")).written =
        none :=
  ⟨by decide,
    (deleteChat_unknown_id (replyEnv []) [⟨js "abc", js "Hello", [], js "t"⟩] (js "zzz")
      (by decide)).2.2.1⟩

/-! ## The store on the file -/

theorem messagesJson_plain (msgs : List Message) :
    JsonValue.itemsPlain (msgs.map messageJson) = true := by
  induction msgs with
  | nil => simp [JsonValue.itemsPlain]
  | cons m ms ih =>
    have h1 : js "role" ≠ js "content" := by decide
    have h2 : js "role" ≠ js "timestamp" := by decide
    have h3 : js "content" ≠ js "timestamp" := by decide
    simp [JsonValue.itemsPlain, messageJson, JsonValue.plain,
      JsonValue.membersPlain, ih, h1, h2, h3]

theorem sessionsJson_plain (chats : List ChatSession) :
    JsonValue.itemsPlain (chats.map sessionJson) = true := by
  induction chats with
  | nil => simp [JsonValue.itemsPlain]
  | cons c cs ih =>
    have h1 : js "id" ≠ js "title" := by decide
    have h2 : js "id" ≠ js "messages" := by decide
    have h3 : js "id" ≠ js "createdAt" := by decide
    have h4 : js "title" ≠ js "messages" := by decide
    have h5 : js "title" ≠ js "createdAt" := by decide
    have h6 : js "messages" ≠ js "createdAt" := by decide
    simp [JsonValue.itemsPlain, sessionJson, JsonValue.plain,
      JsonValue.membersPlain, messagesJson_plain, ih, h1, h2, h3, h4, h5, h6]

theorem chatsJson_plain (chats : List ChatSession) :
    (chatsJson chats).plain = true := by
  simp [chatsJson, JsonValue.plain, sessionsJson_plain]

theorem decodeMessages_messagesJson (msgs : List Message) :
    decodeMessages (msgs.map messageJson) = some msgs := by
  induction msgs with
  | nil => rfl
  | cons m ms ih => simp [decodeMessages, decodeMessage, messageJson, ih]

theorem decodeSessions_sessionsJson (chats : List ChatSession) :
    decodeSessions (chats.map sessionJson) = some chats := by
  induction chats with
  | nil => rfl
  | cons c cs ih =>
    simp [decodeSessions, decodeSession, sessionJson, decodeMessages_messagesJson, ih]

/-- The JavaScript value of a store is read as that store. -/
theorem decodeChats_chatsJson (chats : List ChatSession) :
    decodeChats (chatsJson chats) = some chats := by
  simp [decodeChats, chatsJson, decodeSessions_sessionsJson]

/-- `JSON.parse` reads back the document `JSON.stringify` printed for a store. -/
theorem parseJson_chatsJson (chats : List ChatSession) :
    parseJson (stringifyValue 0 (chatsJson chats)) = some (chatsJson chats) :=
  parseJson_stringifyValue _ (chatsJson_plain chats)

/-- A write that does not fail leaves the printed store in the file. -/
theorem writeChats_ok (env : Env) (file : ChatsFile) (chats : List ChatSession)
    (h : env.writeFailure = none) :
    writeChats env file chats = (.ok (), some (stringifyValue 0 (chatsJson chats))) := by
  simp [writeChats, h]

/-- A write that fails throws and leaves the file as it was. -/
theorem writeChats_failed (env : Env) (file : ChatsFile) (chats : List ChatSession)
    (e : JsString) (h : env.writeFailure = some e) :
    writeChats env file chats = (.error e, file) := by
  simp [writeChats, h]

/-- Reading a file that holds the printed store returns the value of the store
and leaves the file alone. -/
theorem readChats_printed (env : Env) (chats : List ChatSession) :
    readChats env (some (stringifyValue 0 (chatsJson chats))) =
      (chatsJson chats, some (stringifyValue 0 (chatsJson chats))) := by
  simp [readChats, initializeChatsFile, parseJson_chatsJson]

/-- Reading while the file is missing creates the empty document and returns the
empty store, when the write does not fail. -/
theorem readChats_missing (env : Env) (h : env.writeFailure = none) :
    readChats env none = (chatsJson [], some (stringifyValue 0 (chatsJson []))) := by
  have hp := parseJson_chatsJson []
  simp only [chatsJson, List.map_nil] at hp ⊢
  simp [readChats, initializeChatsFile, h, hp]

/-- The handler on the file answers as the handler on the sequence read, and
leaves in the file what `writeChats` left when it was called. -/
theorem postApiChat_eq_postChat (env : Env) (file : ChatsFile) (req : ChatRequest)
    (chats : List ChatSession) (h : decodeChats (readChats env file).1 = some chats) :
    postApiChat env file req =
      some ((postChat env chats req).response,
        match (postChat env chats req).written with
        | some stored => (writeChats env (readChats env file).2 stored).2
        | none => if reachesStore req then (readChats env file).2 else file) := by
  obtain ⟨message, aiModel, chatId⟩ := req
  unfold postApiChat postChat reachesStore
  simp only [h]
  cases hv : validateChatInput message aiModel with
  | error e => simp
  | ok errs =>
    cases errs with
    | cons a t => simp
    | nil =>
      simp only [List.length_nil, gt_iff_lt, lt_self_iff_false, if_false]
      cases hm : message.callTrim with
      | error e => simp
      | ok clean =>
        by_cases hlog : (chatId.orElse (.str (js "Yangi suhbat"))).convertsToString = true
        · simp only [hlog, Bool.not_true, Bool.false_eq_true, if_false]
          cases hr : resolveChat chats chatId with
          | error e => simp
          | ok p =>
            obtain ⟨cur, history⟩ := p
            simp only []
            cases hc : env.callModel (if 0 < history.length then
                ModelCall.startChatSendMessage history clean
                else ModelCall.generateContent clean) with
            | error e => simp
            | ok text =>
              simp only []
              by_cases hb : (text.isEmpty || (trim text).length == 0) = true
              · simp [hb]
              · simp only [hb, Bool.false_eq_true, if_false]
                cases hw : env.writeFailure with
                | none => simp [writeChats, hw]
                | some e => simp [writeChats, hw]
        · simp [hlog]

/-- The deletion on the file answers as the deletion on the sequence read, and
leaves in the file what `writeChats` left when it was called. -/
theorem deleteApiChat_eq_deleteChat (env : Env) (file : ChatsFile) (id : JsString)
    (chats : List ChatSession) (h : decodeChats (readChats env file).1 = some chats) :
    deleteApiChat env file id =
      some ((deleteChat env chats id).response,
        match (deleteChat env chats id).written with
        | some stored => (writeChats env (readChats env file).2 stored).2
        | none => (readChats env file).2) := by
  unfold deleteApiChat deleteChat
  simp only [h]
  split
  · rfl
  · cases hw : env.writeFailure <;> simp [writeChats, hw]

/-- The retrieval on the file answers as the retrieval on the sequence read. -/
theorem getApiChat_eq_getChat (env : Env) (file : ChatsFile) (id : JsString)
    (chats : List ChatSession) (h : decodeChats (readChats env file).1 = some chats) :
    getApiChat env file id = some ((getChat env chats id).response, (readChats env file).2) := by
  unfold getApiChat getChat
  simp only [h]
  cases chats.find? (fun c => c.id == id) <;> rfl

/-! ## Session resolution and the post-call mutation -/

theorem errorStatus_chatIdNotFound :
    errorStatus (js "Chat ID not found") = (404, js "Chat ID not found") := by
  decide

/-- The session `find` returns splits the store, and the push changes only it. -/
theorem pushMessages_of_findChat (chatId : JsVal) (added : List Message) :
    ∀ (chats : List ChatSession) (c : ChatSession), findChat chats chatId = some c →
      ∃ pre post, chats = pre ++ c :: post ∧
        (∀ x ∈ pre, JsVal.strictEqStr x.id chatId = false) ∧
        JsVal.strictEqStr c.id chatId = true ∧
        pushMessages chatId added chats =
          pre ++ { c with messages := c.messages ++ added } :: post := by
  intro chats
  induction chats with
  | nil => intro c h; simp [findChat] at h
  | cons a rest ih =>
    intro c h
    by_cases ha : JsVal.strictEqStr a.id chatId = true
    · have hc : a = c := by simpa [findChat, List.find?_cons, ha] using h
      subst hc
      exact ⟨[], rest, rfl, by simp, ha, by simp [pushMessages, ha]⟩
    · have hrest : findChat rest chatId = some c := by
        simpa [findChat, List.find?_cons, ha] using h
      obtain ⟨pre, post, hsplit, hpre, hid, hpush⟩ := ih c hrest
      refine ⟨a :: pre, post, by simp [hsplit], ?_, hid, ?_⟩
      · intro x hx
        rcases List.mem_cons.1 hx with rfl | hx
        · simpa using ha
        · exact hpre x hx
      · simp [pushMessages, ha, hpush]

theorem findChat_eq_none (chats : List ChatSession) (chatId : JsVal)
    (h : ∀ c ∈ chats, JsVal.strictEqStr c.id chatId = false) : findChat chats chatId = none := by
  simp only [findChat, List.find?_eq_none]
  intro c hc
  simp [h c hc]

theorem trim_length_ne_zero (text : JsString) (h : trim text ≠ []) :
    (text.isEmpty || (trim text).length == 0) = false := by
  have h1 : text ≠ [] := by
    rintro rfl
    exact h rfl
  have h2 : (trim text).length ≠ 0 := by
    simpa [List.length_eq_zero] using h
  simp [List.isEmpty_iff, h1, h2]

/-- The outcome of a valid request whose chatId is falsy and whose single-shot
call is answered with a non-blank text. -/
theorem postChat_falsy_chatId (env : Env) (chats : List ChatSession) (m text : JsString)
    (aiModel chatId : JsVal)
    (hv : validateChatInput (.str m) aiModel = .ok [])
    (hc : chatId.truthy = false)
    (hreply : env.callModel (.generateContent (trim m)) = .ok text)
    (hnb : trim text ≠ []) :
    postChat env chats ⟨.str m, aiModel, chatId⟩ =
      { response :=
          match env.writeFailure with
          | some e => catchResponse env e
          | none =>
            { status := 200
              body := .chat (trim text) (aiModel.orElse (.str (js "Gemini"))) env.responseTime
                text.length (newChat env (trim m) text).id }
        written := some (chats ++ [newChat env (trim m) text])
        call := some (.generateContent (trim m)) } := by
  have hn : ¬ (text = [] ∨ trim text = []) := by
    rintro (h | h)
    · subst h
      exact hnb rfl
    · exact hnb h
  simp [postChat, hv, resolveChat, hc, hreply, hn, storeExchange, logLine_falsy chatId hc]
  cases env.writeFailure <;> simp

/-- C3 as stated fails: the supplied chatId "" equals the id of no session of
the empty store, yet the request succeeds and a new session is written; and
with an invalid (empty) message an unknown chatId ends in 400, not 404. -/
theorem postChat_unmatched_chatId_not_always_404 :
    (postChat (replyEnv (js "Hello!")) [] ⟨.str (js "hi"), .undefined, .str (js "")⟩).response.status
      = 200 ∧
    (postChat (replyEnv (js "Hello!")) [] ⟨.str (js "hi"), .undefined, .str (js "")⟩).written =
      some [newChat (replyEnv (js "Hello!")) (js "hi") (js "Hello!")] ∧
    (postChat (replyEnv (js "Hello!")) [] ⟨.str (js ""), .undefined, .str (js "nope")⟩).response.status
      = 400 := by
  refine ⟨?_, ?_, ?_⟩ <;> rfl

/-- A truthy chatId whose conversion to a string throws ends the request at the
log line of line 129, with 500 and before the store is read. -/
theorem postChat_unconvertible_chatId (env : Env) (chats : List ChatSession) (m : JsString)
    (aiModel chatId : JsVal)
    (hv : validateChatInput (.str m) aiModel = .ok [])
    (ht : chatId.truthy = true) (hconv : chatId.convertsToString = false) :
    (postChat env chats ⟨.str m, aiModel, chatId⟩).response.status = 500 ∧
    (postChat env chats ⟨.str m, aiModel, chatId⟩).written = none := by
  have he : errorStatus (js "Cannot convert object to primitive value") =
      (500, js "Internal server error") := by decide
  constructor <;> simp [postChat, hv, JsVal.orElse, ht, hconv, catchResponse, he]

/-- C3, amended: for every store, every request whose message passes
validation and every truthy chatId that converts to a string (every non-empty
string, every non-zero number, true, and the arrays and objects whose
conversion does not throw) and is strictly equal to the id of no session, POST
/api/chat answers 404 Chat ID not found, calls neither the model nor
writeChats, and so creates no session. -/
theorem postChat_unknown_chatId (env : Env) (chats : List ChatSession) (m : JsString)
    (aiModel chatId : JsVal)
    (hv : validateChatInput (.str m) aiModel = .ok [])
    (ht : chatId.truthy = true)
    (hconv : chatId.convertsToString = true)
    (hnone : ∀ c ∈ chats, JsVal.strictEqStr c.id chatId = false) :
    (postChat env chats ⟨.str m, aiModel, chatId⟩).response.status = 404 ∧
    (postChat env chats ⟨.str m, aiModel, chatId⟩).response.body =
      .failure (js "Chat ID not found") none (some env.responseTime)
        (some (substringFrom env.randomRequest 7)) ∧
    (postChat env chats ⟨.str m, aiModel, chatId⟩).written = none ∧
    (postChat env chats ⟨.str m, aiModel, chatId⟩).call = none := by
  have hf := findChat_eq_none chats chatId hnone
  refine ⟨?_, ?_, ?_, ?_⟩ <;>
    simp [postChat, hv, resolveChat, ht, hf, catchResponse, errorStatus_chatIdNotFound,
      JsVal.orElse, hconv]

/-- Witness of C3 amended: the chatId "nope" against a store holding "abc". -/
theorem postChat_unknown_chatId_witness :
    (postChat (replyEnv (js "Hello!")) [⟨js "abc", js "Hi", [], js "t"⟩]
      ⟨.str (js "hi"), .undefined, .str (js "nope")⟩).response.status = 404 ∧
    (postChat (replyEnv (js "Hello!")) [⟨js "abc", js "Hi", [], js "t"⟩]
      ⟨.str (js "hi"), .undefined, .str (js "nope")⟩).written = none :=
  ⟨(postChat_unknown_chatId (replyEnv (js "Hello!")) [⟨js "abc", js "Hi", [], js "t"⟩]
      (js "hi") .undefined (.str (js "nope")) rfl rfl rfl (by decide)).1,
   (postChat_unknown_chatId (replyEnv (js "Hello!")) [⟨js "abc", js "Hi", [], js "t"⟩]
      (js "hi") .undefined (.str (js "nope")) rfl rfl rfl (by decide)).2.2.1⟩

/-! ## The title of a new session -/

theorem substring_zero (s : JsString) (n : Nat) : substring s 0 n = s.take n := by
  simp [substring]

/-- C13: the title of the session POST /api/chat creates from the trimmed
message m is m itself when m has at most 30 code units, and the first 30 code
units of m followed by "..." when it has more; so the title has at most 33 code
units and its first min(30, |m|) code units are the first ones of m; this is
the title of the session appended to the store by a request without chatId. -/
theorem newChat_title (env : Env) (m text : JsString) :
    (m.length ≤ 30 → (newChat env m text).title = m) ∧
    (30 < m.length → (newChat env m text).title = m.take 30 ++ js "...") ∧
    (newChat env m text).title.length ≤ 33 ∧
    (newChat env m text).title.take (min 30 m.length) = m.take (min 30 m.length) ∧
    (newChat env m text).title.take (min 30 m.length) <+: m ∧
    (∀ (chats : List ChatSession) (raw : JsString) (aiModel : JsVal),
      trim raw = m → validateChatInput (.str raw) aiModel = .ok [] →
      env.callModel (.generateContent m) = .ok text → trim text ≠ [] →
      (postChat env chats ⟨.str raw, aiModel, .undefined⟩).written =
        some (chats ++ [newChat env m text])) := by
  have hdots : (js "...").length = 3 := by decide
  have hempty : js "" = [] := by decide
  have htake : (newChat env m text).title.take (min 30 m.length) = m.take (min 30 m.length) := by
    simp only [newChat, substring_zero]
    rw [List.take_append_of_le_length (by simp [List.length_take]), List.take_take]
    congr 1
    omega
  refine ⟨?_, ?_, ?_, htake, ?_, ?_⟩
  · intro h
    have hn : ¬ 30 < m.length := by omega
    simp [newChat, substring_zero, hn, hempty, List.take_of_length_le h]
  · intro h
    simp [newChat, substring_zero, h]
  · by_cases h : 30 < m.length
    · simp [newChat, substring_zero, h, hdots, List.length_take]
    · simp [newChat, substring_zero, h, hempty, List.length_take]
  · rw [htake]
    exact List.take_prefix _ _
  · intro chats raw aiModel hm hv hreply hnb
    subst hm
    rw [postChat_falsy_chatId env chats raw text aiModel .undefined hv rfl hreply hnb]

/-- Witness of C13: a message of 34 code units gets its first 30 and "...". -/
theorem newChat_title_witness :
    30 < (js "Please summarise this long article").length ∧
      (newChat (replyEnv (js "ok")) (js "Please summarise this long article") (js "ok")).title =
        (js "Please summarise this long article").take 30 ++ js "..." :=
  ⟨by decide,
    (newChat_title (replyEnv (js "ok")) (js "Please summarise this long article") (js "ok")).2.1
      (by decide)⟩

/-! ## The paths of `POST /api/chat` -/

theorem errorStatus_ne_200 (e : JsString) : (errorStatus e).1 ≠ 200 := by
  unfold errorStatus
  split_ifs <;> decide

theorem errorStatus_emptyResponse :
    errorStatus (js "Empty response from AI") = (500, js "Internal server error") := by
  decide

/-- A request whose message passes validation and whose session resolution
succeeds reaches the model call; the rest of the handler is as follows. -/
theorem postChat_reached (env : Env) (chats : List ChatSession) (m : JsString)
    (aiModel chatId : JsVal) (cur : Option ChatSession) (history : List HistoryEntry)
    (hv : validateChatInput (.str m) aiModel = .ok [])
    (hr : resolveChat chats chatId = .ok (cur, history)) :
    postChat env chats ⟨.str m, aiModel, chatId⟩ =
      match env.callModel
        (if history.length > 0 then ModelCall.startChatSendMessage history (trim m)
          else ModelCall.generateContent (trim m)) with
      | .error e =>
        { response := catchResponse env e, written := none
          call := some (if history.length > 0 then
            ModelCall.startChatSendMessage history (trim m)
            else ModelCall.generateContent (trim m)) }
      | .ok text =>
        if text.isEmpty || (trim text).length == 0 then
          { response := catchResponse env (js "Empty response from AI"), written := none
            call := some (if history.length > 0 then
              ModelCall.startChatSendMessage history (trim m)
              else ModelCall.generateContent (trim m)) }
        else
          { response :=
              match env.writeFailure with
              | some e => catchResponse env e
              | none =>
                { status := 200
                  body := .chat (trim text) (aiModel.orElse (.str (js "Gemini")))
                    env.responseTime text.length
                    (storeExchange env chats chatId cur (trim m) text).2.id }
            written := some (storeExchange env chats chatId cur (trim m) text).1
            call := some (if history.length > 0 then
              ModelCall.startChatSendMessage history (trim m)
              else ModelCall.generateContent (trim m)) } := by
  simp only [postChat, hv, hr, JsVal.callTrim, List.length_nil, gt_iff_lt, lt_self_iff_false,
    if_false, logLine_resolved chats chatId (cur, history) hr, Bool.not_true, Bool.false_eq_true]
  cases env.callModel (if 0 < history.length then
      ModelCall.startChatSendMessage history (trim m)
      else ModelCall.generateContent (trim m)) with
  | error e => rfl
  | ok text =>
    simp only []
    split
    · rfl
    · cases env.writeFailure <;> rfl

/-- A request that made a model call had a string message that passed
validation and a session resolution that succeeded. -/
theorem postChat_call_some (env : Env) (chats : List ChatSession) (req : ChatRequest)
    (call : ModelCall) (h : (postChat env chats req).call = some call) :
    ∃ m cur history, req.message = .str m ∧
      validateChatInput (.str m) req.aiModel = .ok [] ∧
      resolveChat chats req.chatId = .ok (cur, history) := by
  obtain ⟨message, aiModel, chatId⟩ := req
  cases hvr : validateChatInput message aiModel with
  | error e => simp [postChat, hvr] at h
  | ok errs =>
    cases errs with
    | cons a t => simp [postChat, hvr] at h
    | nil =>
      cases message with
      | str m =>
        cases hres : resolveChat chats chatId with
        | error e =>
          by_cases hlog : (chatId.orElse (.str (js "Yangi suhbat"))).convertsToString = true <;>
            simp [postChat, hvr, hres, hlog] at h
        | ok p => exact ⟨m, p.1, p.2, rfl, hvr, rfl⟩
      | undefined => simp [postChat, hvr, JsVal.callTrim] at h
      | null => simp [postChat, hvr, JsVal.callTrim] at h
      | bool b => simp [postChat, hvr, JsVal.callTrim] at h
      | num n => simp [postChat, hvr, JsVal.callTrim] at h
      | arr items => simp [postChat, hvr, JsVal.callTrim] at h
      | obj fields => simp [postChat, hvr, JsVal.callTrim] at h

/-- The resolution of a truthy chatId succeeds only with a session found. -/
theorem resolveChat_truthy (chats : List ChatSession) (chatId : JsVal)
    (cur : Option ChatSession) (history : List HistoryEntry)
    (ht : chatId.truthy = true) (hr : resolveChat chats chatId = .ok (cur, history)) :
    ∃ found, findChat chats chatId = some found ∧ cur = some found ∧
      history = conversationHistory found.messages := by
  unfold resolveChat at hr
  rw [if_pos ht] at hr
  cases hf : findChat chats chatId with
  | none => simp [hf] at hr
  | some found =>
    simp only [hf, Except.ok.injEq, Prod.mk.injEq] at hr
    exact ⟨found, rfl, hr.1.symm, hr.2.symm⟩

/-- The resolution of a falsy chatId finds nothing and projects nothing. -/
theorem resolveChat_falsy (chats : List ChatSession) (chatId : JsVal)
    (cur : Option ChatSession) (history : List HistoryEntry)
    (hf : chatId.truthy = false) (hr : resolveChat chats chatId = .ok (cur, history)) :
    cur = none ∧ history = [] := by
  unfold resolveChat at hr
  simp only [hf, Bool.false_eq_true, if_false, Except.ok.injEq, Prod.mk.injEq] at hr
  exact ⟨hr.1.symm, hr.2.symm⟩

theorem strictEqStr_eq_true (s : JsString) (v : JsVal) (h : JsVal.strictEqStr s v = true) :
    v = .str s := by
  cases v <;> simp_all [JsVal.strictEqStr]

/-- The call a request makes once it has reached the model invocation. -/
theorem postChat_call_reached (env : Env) (chats : List ChatSession) (m : JsString)
    (aiModel chatId : JsVal) (cur : Option ChatSession) (history : List HistoryEntry)
    (hv : validateChatInput (.str m) aiModel = .ok [])
    (hr : resolveChat chats chatId = .ok (cur, history)) :
    (postChat env chats ⟨.str m, aiModel, chatId⟩).call =
      some (if history.length > 0 then ModelCall.startChatSendMessage history (trim m)
        else ModelCall.generateContent (trim m)) := by
  rw [postChat_reached env chats m aiModel chatId cur history hv hr]
  cases env.callModel (if history.length > 0 then
      ModelCall.startChatSendMessage history (trim m)
      else ModelCall.generateContent (trim m)) with
  | error e => rfl
  | ok text =>
    simp only []
    split <;> rfl

/-- A request answered with status 200 had a string message that passed
validation and a session resolution that succeeded. -/
theorem postChat_status_200 (env : Env) (chats : List ChatSession) (req : ChatRequest)
    (h : (postChat env chats req).response.status = 200) :
    ∃ m cur history, req.message = .str m ∧
      validateChatInput (.str m) req.aiModel = .ok [] ∧
      resolveChat chats req.chatId = .ok (cur, history) := by
  have hne := errorStatus_ne_200
  obtain ⟨message, aiModel, chatId⟩ := req
  cases hvr : validateChatInput message aiModel with
  | error e => simp [postChat, hvr, catchResponse, hne] at h
  | ok errs =>
    cases errs with
    | cons a t => simp [postChat, hvr] at h
    | nil =>
      cases message with
      | str m =>
        cases hres : resolveChat chats chatId with
        | error e =>
          by_cases hlog : (chatId.orElse (.str (js "Yangi suhbat"))).convertsToString = true <;>
            simp [postChat, hvr, hres, hlog, catchResponse, hne] at h
        | ok p => exact ⟨m, p.1, p.2, rfl, hvr, rfl⟩
      | undefined => simp [postChat, hvr, JsVal.callTrim, catchResponse, hne] at h
      | null => simp [postChat, hvr, JsVal.callTrim, catchResponse, hne] at h
      | bool b => simp [postChat, hvr, JsVal.callTrim, catchResponse, hne] at h
      | num n => simp [postChat, hvr, JsVal.callTrim, catchResponse, hne] at h
      | arr items => simp [postChat, hvr, JsVal.callTrim, catchResponse, hne] at h
      | obj fields => simp [postChat, hvr, JsVal.callTrim, catchResponse, hne] at h

/-! ## A blank reply -/

/-- C12: when the reply to the model call a request made is empty or all white
space, POST /api/chat answers with the failure body 500 Internal server error
and never reaches writeChats: no message is appended, no session is created,
nothing is written. -/
theorem postChat_blank_reply (env : Env) (chats : List ChatSession) (req : ChatRequest)
    (call : ModelCall) (text : JsString)
    (hcall : (postChat env chats req).call = some call)
    (hreply : env.callModel call = .ok text)
    (hblank : ∀ c ∈ text, isWhiteSpace c = true) :
    (postChat env chats req).response.status = 500 ∧
    (postChat env chats req).response.body =
      .failure (js "Internal server error") none (some env.responseTime)
        (some (substringFrom env.randomRequest 7)) ∧
    (postChat env chats req).written = none := by
  obtain ⟨m, cur, history, hm, hv, hr⟩ := postChat_call_some env chats req call hcall
  obtain ⟨message, aiModel, chatId⟩ := req
  simp only at hm hv hr
  subst hm
  have hc := postChat_call_reached env chats m aiModel chatId cur history hv hr
  rw [hcall] at hc
  have hc2 := Option.some.inj hc
  have htrim : trim text = [] := (trim_eq_nil_iff text).2 hblank
  rw [postChat_reached env chats m aiModel chatId cur history hv hr, ← hc2, hreply]
  simp [htrim, catchResponse, errorStatus_emptyResponse]

/-- Witness of C12: the reply " \n" to the message "Hello". -/
theorem postChat_blank_reply_witness :
    (postChat (replyEnv (js " \n")) [] ⟨.str (js "Hello"), .undefined, .undefined⟩).response.status
        = 500 ∧
      (postChat (replyEnv (js " \n")) [] ⟨.str (js "Hello"), .undefined, .undefined⟩).written =
        none :=
  ⟨(postChat_blank_reply (replyEnv (js " \n")) [] ⟨.str (js "Hello"), .undefined, .undefined⟩
      (.generateContent (js "Hello")) (js " \n") rfl rfl (by decide)).1,
   (postChat_blank_reply (replyEnv (js " \n")) [] ⟨.str (js "Hello"), .undefined, .undefined⟩
      (.generateContent (js "Hello")) (js " \n") rfl rfl (by decide)).2.2⟩

/-! ## The success response -/

/-- What is stored for a truthy chatId that resolved to the session found. -/
theorem storeExchange_found (env : Env) (chats : List ChatSession) (chatId : JsVal)
    (found : ChatSession) (clean text : JsString) (ht : chatId.truthy = true) :
    storeExchange env chats chatId (some found) clean text =
      (pushMessages chatId (exchange env clean text) chats,
        { found with messages := found.messages ++ exchange env clean text }) := by
  simp [storeExchange, ht]

/-- What is stored for a falsy chatId. -/
theorem storeExchange_new (env : Env) (chats : List ChatSession) (chatId : JsVal)
    (cur : Option ChatSession) (clean text : JsString) (hf : chatId.truthy = false) :
    storeExchange env chats chatId cur clean text =
      (chats ++ [newChat env clean text], newChat env clean text) := by
  simp [storeExchange, hf]

/-- C15 as stated fails: for the reply " Hi there\n" the response echoes the
8 code units "Hi there" as message while messageLength is 10, the length of the
reply before trimming; and the aiModel 0 of the request is answered with the
model label Gemini. -/
theorem postChat_messageLength_counts_untrimmed :
    (postChat (replyEnv (js " Hi there\n")) []
      ⟨.str (js "Hello"), .undefined, .undefined⟩).response.body =
      .chat (js "Hi there") (.str (js "Gemini")) (js "2024-01-01T00:00:00.003Z") 10
        (js "4fzyo82m") ∧
    (js "Hi there").length = 8 ∧
    (postChat (replyEnv (js " Hi there\n")) []
      ⟨.str (js "Hello"), .num 0, .undefined⟩).response.body =
      .chat (js "Hi there") (.str (js "Gemini")) (js "2024-01-01T00:00:00.003Z") 10
        (js "4fzyo82m") := by
  refine ⟨?_, ?_, ?_⟩ <;> rfl

/-- C15, amended: every POST /api/chat answered with status 200 made a model
call that was answered with a text, and its body holds: as message, that text
trimmed; as model, the aiModel of the request when it is truthy and the label
Gemini otherwise; as messageLength, the length of the text before trimming; as
chatId, the id of a session of the written store whose messages end with the
exchange, which is the chatId of the request whenever that is truthy. -/
theorem postChat_success_response (env : Env) (chats : List ChatSession) (req : ChatRequest)
    (h : (postChat env chats req).response.status = 200) :
    ∃ m text call cur stored,
      req.message = .str m ∧
      (postChat env chats req).call = some call ∧ env.callModel call = .ok text ∧
      (postChat env chats req).response.body =
        .chat (trim text) (req.aiModel.orElse (.str (js "Gemini"))) env.responseTime
          text.length cur.id ∧
      (req.aiModel.truthy = true → req.aiModel.orElse (.str (js "Gemini")) = req.aiModel) ∧
      (req.aiModel.truthy = false →
        req.aiModel.orElse (.str (js "Gemini")) = .str (js "Gemini")) ∧
      (postChat env chats req).written = some stored ∧ cur ∈ stored ∧
      (∃ old, cur.messages = old ++
        [⟨js "user", trim m, env.userTime⟩, ⟨js "assistant", trim text, env.assistantTime⟩]) ∧
      (req.chatId.truthy = true → req.chatId = .str cur.id) := by
  obtain ⟨m, cur, history, hm, hv, hr⟩ := postChat_status_200 env chats req h
  obtain ⟨message, aiModel, chatId⟩ := req
  simp only at hm hv hr
  subst hm
  have hc := postChat_call_reached env chats m aiModel chatId cur history hv hr
  have hp := postChat_reached env chats m aiModel chatId cur history hv hr
  have hne := errorStatus_ne_200
  generalize (if history.length > 0 then ModelCall.startChatSendMessage history (trim m)
    else ModelCall.generateContent (trim m)) = call at hc hp
  have hor1 : aiModel.truthy = true → aiModel.orElse (.str (js "Gemini")) = aiModel := by
    intro ht
    simp [JsVal.orElse, ht]
  have hor2 : aiModel.truthy = false →
      aiModel.orElse (.str (js "Gemini")) = .str (js "Gemini") := by
    intro ht
    simp [JsVal.orElse, ht]
  cases hcm : env.callModel call with
  | error e =>
    rw [hp, hcm] at h
    exact absurd h (by simpa [catchResponse] using hne e)
  | ok text =>
    rw [hcm] at hp
    by_cases hb : (text.isEmpty || (trim text).length == 0) = true
    · rw [hp] at h
      simp only [hb, if_true, catchResponse] at h
      exact absurd h (hne _)
    · simp only [hb, Bool.false_eq_true, if_false] at hp
      cases hw : env.writeFailure with
      | some e =>
        rw [hp] at h
        simp only [hw, catchResponse] at h
        exact absurd h (hne _)
      | none =>
        simp only [hw] at hp
        by_cases ht : chatId.truthy = true
        · obtain ⟨found, hfind, hcur, _⟩ := resolveChat_truthy chats chatId cur history ht hr
          subst hcur
          obtain ⟨pre, post, _, _, hid, hpush⟩ :=
            pushMessages_of_findChat chatId (exchange env (trim m) text) chats found hfind
          rw [storeExchange_found env chats chatId found (trim m) text ht] at hp
          refine ⟨m, text, call,
            { found with messages := found.messages ++ exchange env (trim m) text },
            pushMessages chatId (exchange env (trim m) text) chats,
            rfl, hc, hcm, by rw [hp], hor1, hor2, by rw [hp], ?_, ⟨found.messages, rfl⟩, ?_⟩
          · rw [hpush]
            simp
          · intro _
            exact strictEqStr_eq_true found.id chatId hid
        · have hf : chatId.truthy = false := by simpa using ht
          rw [storeExchange_new env chats chatId cur (trim m) text hf] at hp
          refine ⟨m, text, call, newChat env (trim m) text, chats ++ [newChat env (trim m) text],
            rfl, hc, hcm, by rw [hp], hor1, hor2, by rw [hp], by simp, ⟨[], rfl⟩, ?_⟩
          intro ht2
          exact absurd ht2 ht

/-- Witness of C15 amended: the first message "Hello", answered " Hi there\n". -/
theorem postChat_success_response_witness :
    ∃ m text call cur stored,
      (ChatRequest.mk (.str (js "Hello")) .undefined .undefined).message = .str m ∧
      (postChat (replyEnv (js " Hi there\n")) []
        ⟨.str (js "Hello"), .undefined, .undefined⟩).call = some call ∧
      (replyEnv (js " Hi there\n")).callModel call = .ok text ∧
      (postChat (replyEnv (js " Hi there\n")) []
        ⟨.str (js "Hello"), .undefined, .undefined⟩).response.body =
        .chat (trim text) (JsVal.undefined.orElse (.str (js "Gemini")))
          (replyEnv (js " Hi there\n")).responseTime text.length cur.id ∧
      (JsVal.undefined.truthy = true →
        JsVal.undefined.orElse (.str (js "Gemini")) = JsVal.undefined) ∧
      (JsVal.undefined.truthy = false →
        JsVal.undefined.orElse (.str (js "Gemini")) = .str (js "Gemini")) ∧
      (postChat (replyEnv (js " Hi there\n")) []
        ⟨.str (js "Hello"), .undefined, .undefined⟩).written = some stored ∧
      cur ∈ stored ∧
      (∃ old, cur.messages = old ++
        [⟨js "user", trim m, (replyEnv (js " Hi there\n")).userTime⟩,
         ⟨js "assistant", trim text, (replyEnv (js " Hi there\n")).assistantTime⟩]) ∧
      (JsVal.undefined.truthy = true → JsVal.undefined = .str cur.id) :=
  postChat_success_response (replyEnv (js " Hi there\n")) []
    ⟨.str (js "Hello"), .undefined, .undefined⟩ rfl

/-! ## The shape of the model call -/

/-- C16 as stated fails in its second part: the supplied chatId "" matches the
stored session whose id is "" and whose message list is empty; the single-shot
call is made, but the exchange is stored as a new session and the matched
session stays empty. -/
theorem postChat_empty_chatId_single_shot_new_session :
    findChat [⟨js "", js "Old chat", [], js "t"⟩] (.str (js "")) =
      some ⟨js "", js "Old chat", [], js "t"⟩ ∧
    (postChat (replyEnv (js "Salut")) [⟨js "", js "Old chat", [], js "t"⟩]
      ⟨.str (js "Bonjour"), .undefined, .str (js "")⟩).call =
      some (.generateContent (js "Bonjour")) ∧
    (postChat (replyEnv (js "Salut")) [⟨js "", js "Old chat", [], js "t"⟩]
      ⟨.str (js "Bonjour"), .undefined, .str (js "")⟩).written =
      some [⟨js "", js "Old chat", [], js "t"⟩,
        newChat (replyEnv (js "Salut")) (js "Bonjour") (js "Salut")] := by
  refine ⟨?_, ?_, ?_⟩ <;> rfl

/-- C16, amended: the model call of POST /api/chat is chosen by the projected
history alone: whenever a call is made it is the continuation call with the
history when the history is non-empty and the single-shot call with the trimmed
message when it is empty, and a request that passes validation and resolves its
session makes a call. For a non-empty chatId whose first matching session has
no message, the single-shot call is made and, on a non-blank reply, the
exchange is appended to that session, the number of sessions unchanged. -/
theorem postChat_call_shape (env : Env) (chats : List ChatSession) (req : ChatRequest) :
    (∀ call, (postChat env chats req).call = some call →
      ∃ m cur history, req.message = .str m ∧
        resolveChat chats req.chatId = .ok (cur, history) ∧
        (history ≠ [] → call = .startChatSendMessage history (trim m)) ∧
        (history = [] → call = .generateContent (trim m))) ∧
    (∀ m cur history, req.message = .str m →
      validateChatInput (.str m) req.aiModel = .ok [] →
      resolveChat chats req.chatId = .ok (cur, history) →
      ∃ call, (postChat env chats req).call = some call) ∧
    (∀ m s c text, req.message = .str m → req.chatId = .str s →
      validateChatInput (.str m) req.aiModel = .ok [] → s ≠ [] →
      findChat chats (.str s) = some c → c.messages = [] →
      env.callModel (.generateContent (trim m)) = .ok text → trim text ≠ [] →
      (postChat env chats req).call = some (.generateContent (trim m)) ∧
      ∃ pre post, chats = pre ++ c :: post ∧ (∀ x ∈ pre, x.id ≠ s) ∧
        (postChat env chats req).written =
          some (pre ++
            { id := c.id, title := c.title, createdAt := c.createdAt
              messages := [⟨js "user", trim m, env.userTime⟩,
                ⟨js "assistant", trim text, env.assistantTime⟩] } :: post)) := by
  obtain ⟨message, aiModel, chatId⟩ := req
  refine ⟨?_, ?_, ?_⟩
  · intro call hcall
    obtain ⟨m, cur, history, hm, hv, hr⟩ := postChat_call_some env chats _ call hcall
    simp only at hm hv hr
    subst hm
    have hc := postChat_call_reached env chats m aiModel chatId cur history hv hr
    rw [hcall] at hc
    have hc2 := Option.some.inj hc
    refine ⟨m, cur, history, rfl, hr, ?_, ?_⟩
    · intro hne
      have hpos : history.length > 0 := List.length_pos.2 hne
      rw [hc2, if_pos hpos]
    · intro he
      subst he
      rw [hc2]
      rfl
  · intro m cur history hm hv hr
    simp only at hm hv hr
    subst hm
    exact ⟨_, postChat_call_reached env chats m aiModel chatId cur history hv hr⟩
  · intro m s c text hm hs hv hne hfind hmsgs hreply hnb
    simp only at hm hs hv
    subst hm
    subst hs
    have ht : (JsVal.str s).truthy = true := by
      cases s with
      | nil => exact absurd rfl hne
      | cons a t => rfl
    have hr : resolveChat chats (.str s) = .ok (some c, []) := by
      simp [resolveChat, ht, hfind, hmsgs, conversationHistory]
    have hn : (text.isEmpty || (trim text).length == 0) = false := trim_length_ne_zero text hnb
    have hp := postChat_reached env chats m aiModel (.str s) (some c) [] hv hr
    simp only [List.length_nil, gt_iff_lt, lt_self_iff_false, if_false, hreply, hn,
      Bool.false_eq_true, storeExchange_found env chats (.str s) c (trim m) text ht] at hp
    obtain ⟨pre, post, hsplit, hpre, _, hpush⟩ :=
      pushMessages_of_findChat (.str s) (exchange env (trim m) text) chats c hfind
    refine ⟨by rw [hp], pre, post, hsplit, ?_, ?_⟩
    · intro x hx
      simpa [JsVal.strictEqStr] using hpre x hx
    · rw [hp]
      simp only [hpush, hmsgs, List.nil_append]
      rfl

/-- Witness of C16 amended: the first message in the empty session "abc". -/
theorem postChat_call_shape_witness :
    (postChat (replyEnv (js "Salut")) [⟨js "abc", js "Old chat", [], js "t"⟩]
      ⟨.str (js "Bonjour"), .undefined, .str (js "abc")⟩).call =
        some (.generateContent (trim (js "Bonjour"))) ∧
      ∃ pre post, [(⟨js "abc", js "Old chat", [], js "t"⟩ : ChatSession)] =
          pre ++ ⟨js "abc", js "Old chat", [], js "t"⟩ :: post ∧
        (∀ x ∈ pre, x.id ≠ js "abc") ∧
        (postChat (replyEnv (js "Salut")) [⟨js "abc", js "Old chat", [], js "t"⟩]
          ⟨.str (js "Bonjour"), .undefined, .str (js "abc")⟩).written =
          some (pre ++
            { id := js "abc", title := js "Old chat", createdAt := js "t"
              messages := [⟨js "user", trim (js "Bonjour"), (replyEnv (js "Salut")).userTime⟩,
                ⟨js "assistant", trim (js "Salut"), (replyEnv (js "Salut")).assistantTime⟩] }
            :: post) :=
  (postChat_call_shape (replyEnv (js "Salut")) [⟨js "abc", js "Old chat", [], js "t"⟩]
    ⟨.str (js "Bonjour"), .undefined, .str (js "abc")⟩).2.2 (js "Bonjour") (js "abc")
    ⟨js "abc", js "Old chat", [], js "t"⟩ (js "Salut") rfl rfl rfl (by decide) rfl rfl rfl
    (by decide)

/-! ## What the handlers leave in the file -/

/-- The outcome of a valid request whose non-empty chatId finds the session
`c` and whose model call is answered with a non-blank text. -/
theorem postChat_found (env : Env) (chats : List ChatSession) (m s text : JsString)
    (aiModel : JsVal) (c : ChatSession)
    (hv : validateChatInput (.str m) aiModel = .ok [])
    (hs : s ≠ [])
    (hfind : findChat chats (.str s) = some c)
    (hreply : env.callModel
      (if (conversationHistory c.messages).length > 0 then
        ModelCall.startChatSendMessage (conversationHistory c.messages) (trim m)
      else ModelCall.generateContent (trim m)) = .ok text)
    (hnb : trim text ≠ []) :
    postChat env chats ⟨.str m, aiModel, .str s⟩ =
      { response :=
          match env.writeFailure with
          | some e => catchResponse env e
          | none =>
            { status := 200
              body := .chat (trim text) (aiModel.orElse (.str (js "Gemini"))) env.responseTime
                text.length c.id }
        written := some (pushMessages (.str s) (exchange env (trim m) text) chats)
        call := some (if (conversationHistory c.messages).length > 0 then
          ModelCall.startChatSendMessage (conversationHistory c.messages) (trim m)
          else ModelCall.generateContent (trim m)) } := by
  have ht : (JsVal.str s).truthy = true := by
    cases s with
    | nil => exact absurd rfl hs
    | cons a t => rfl
  have hr : resolveChat chats (.str s) = .ok (some c, conversationHistory c.messages) := by
    simp [resolveChat, ht, hfind]
  have hn : (text.isEmpty || (trim text).length == 0) = false := trim_length_ne_zero text hnb
  rw [postChat_reached env chats m aiModel (.str s) (some c) _ hv hr, hreply]
  simp only [hn, Bool.false_eq_true, if_false,
    storeExchange_found env chats (.str s) c (trim m) text ht]

/-- C2 as stated fails: the supplied chatId "" matches the stored session whose
id is "", yet the guard on chatId treats it as absent: the request is answered
with 200 and chats.json afterwards holds a second session, the matched session
having gained no message. -/
theorem postApiChat_empty_chatId_adds_session :
    findChat [⟨js "", js "Hi", [], js "t"⟩] (.str (js "")) =
      some ⟨js "", js "Hi", [], js "t"⟩ ∧
    validateChatInput (.str (js "hi")) .undefined = .ok [] ∧
    decodeChats (readChats (replyEnv (js "Hello!"))
      (some (stringifyValue 0 (chatsJson [⟨js "", js "Hi", [], js "t"⟩])))).1 =
      some [⟨js "", js "Hi", [], js "t"⟩] ∧
    (postChat (replyEnv (js "Hello!")) [⟨js "", js "Hi", [], js "t"⟩]
      ⟨.str (js "hi"), .undefined, .str (js "")⟩).written =
      some [⟨js "", js "Hi", [], js "t"⟩,
        newChat (replyEnv (js "Hello!")) (js "hi") (js "Hello!")] ∧
    (∃ response,
      postApiChat (replyEnv (js "Hello!"))
        (some (stringifyValue 0 (chatsJson [⟨js "", js "Hi", [], js "t"⟩])))
        ⟨.str (js "hi"), .undefined, .str (js "")⟩ =
        some (response, some (stringifyValue 0 (chatsJson [⟨js "", js "Hi", [], js "t"⟩,
          newChat (replyEnv (js "Hello!")) (js "hi") (js "Hello!")]))) ∧
      response.status = 200) := by
  have hstore : decodeChats (readChats (replyEnv (js "Hello!"))
      (some (stringifyValue 0 (chatsJson [⟨js "", js "Hi", [], js "t"⟩])))).1 =
      some [⟨js "", js "Hi", [], js "t"⟩] := by
    rw [readChats_printed]
    exact decodeChats_chatsJson _
  refine ⟨rfl, rfl, hstore, rfl, ?_⟩
  rw [postApiChat_eq_postChat _ _ _ _ hstore,
    postChat_falsy_chatId (replyEnv (js "Hello!")) _ (js "hi") (js "Hello!") .undefined
      (.str (js "")) rfl rfl rfl (by decide)]
  exact ⟨_, rfl, rfl⟩

/-- C2, amended: for every store held by chats.json, every non-empty chatId
whose first matching session is c, every message that passes validation, every
non-blank reply to the model call and a write that succeeds, POST /api/chat
answers 200 and the store it persists (what writeChats leaves in chats.json and
readChats returns from it) is the store before the request with c alone
changed: its message list is the old list followed by the user message with
the trimmed request text and the assistant message with the trimmed reply; the
sessions before and after c, the number of sessions and the id, title and
createdAt of c are as before. -/
theorem postApiChat_continue_appends (env readEnv : Env) (file : ChatsFile)
    (chats : List ChatSession) (m s text : JsString) (aiModel : JsVal) (c : ChatSession)
    (hstore : decodeChats (readChats env file).1 = some chats)
    (hv : validateChatInput (.str m) aiModel = .ok [])
    (hs : s ≠ [])
    (hfind : findChat chats (.str s) = some c)
    (hreply : env.callModel
      (if (conversationHistory c.messages).length > 0 then
        ModelCall.startChatSendMessage (conversationHistory c.messages) (trim m)
      else ModelCall.generateContent (trim m)) = .ok text)
    (hnb : trim text ≠ [])
    (hwrite : env.writeFailure = none) :
    ∃ pre post persisted newFile,
      chats = pre ++ c :: post ∧ c.id = s ∧ (∀ x ∈ pre, x.id ≠ s) ∧
      persisted = pre ++
        { id := c.id, title := c.title, createdAt := c.createdAt
          messages := c.messages ++
            [⟨js "user", trim m, env.userTime⟩,
             ⟨js "assistant", trim text, env.assistantTime⟩] } :: post ∧
      persisted.length = chats.length ∧
      postApiChat env file ⟨.str m, aiModel, .str s⟩ =
        some ({ status := 200
                body := .chat (trim text) (aiModel.orElse (.str (js "Gemini")))
                  env.responseTime text.length c.id }, newFile) ∧
      writeChats env (readChats env file).2 persisted = (.ok (), newFile) ∧
      newFile = some (stringifyValue 0 (chatsJson persisted)) ∧
      decodeChats (readChats readEnv newFile).1 = some persisted := by
  obtain ⟨pre, post, hsplit, hpre, hid, hpush⟩ :=
    pushMessages_of_findChat (.str s) (exchange env (trim m) text) chats c hfind
  refine ⟨pre, post, _, some (stringifyValue 0 (chatsJson (pre ++
    { id := c.id, title := c.title, createdAt := c.createdAt
      messages := c.messages ++ exchange env (trim m) text } :: post))),
    hsplit, ?_, ?_, rfl, ?_, ?_, ?_, rfl, ?_⟩
  · simpa [JsVal.strictEqStr] using hid
  · intro x hx
    simpa [JsVal.strictEqStr] using hpre x hx
  · rw [hsplit]
    simp
  · rw [postApiChat_eq_postChat _ _ _ _ hstore,
      postChat_found env chats m s text aiModel c hv hs hfind hreply hnb]
    simp only [hwrite, hpush, writeChats]
  · exact writeChats_ok env _ _ hwrite
  · rw [readChats_printed]
    exact decodeChats_chatsJson _

/-- Witness of C2 amended: a second message in the stored session `sampleChat`. -/
theorem postApiChat_continue_appends_witness :
    ∃ pre post persisted newFile,
      [sampleChat] = pre ++ sampleChat :: post ∧ sampleChat.id = js "4fzyo82m" ∧
      (∀ x ∈ pre, x.id ≠ js "4fzyo82m") ∧
      persisted = pre ++
        { id := sampleChat.id, title := sampleChat.title, createdAt := sampleChat.createdAt
          messages := sampleChat.messages ++
            [⟨js "user", trim (js "How?"), (replyEnv (js " Fine. ")).userTime⟩,
             ⟨js "assistant", trim (js " Fine. "), (replyEnv (js " Fine. ")).assistantTime⟩] } ::
          post ∧
      persisted.length = [sampleChat].length ∧
      postApiChat (replyEnv (js " Fine. ")) (some (stringifyValue 0 (chatsJson [sampleChat])))
        ⟨.str (js "How?"), .undefined, .str (js "4fzyo82m")⟩ =
        some ({ status := 200
                body := .chat (trim (js " Fine. ")) (JsVal.undefined.orElse (.str (js "Gemini")))
                  (replyEnv (js " Fine. ")).responseTime (js " Fine. ").length sampleChat.id },
          newFile) ∧
      writeChats (replyEnv (js " Fine. "))
        (readChats (replyEnv (js " Fine. "))
          (some (stringifyValue 0 (chatsJson [sampleChat])))).2 persisted = (.ok (), newFile) ∧
      newFile = some (stringifyValue 0 (chatsJson persisted)) ∧
      decodeChats (readChats (replyEnv []) newFile).1 = some persisted :=
  postApiChat_continue_appends (replyEnv (js " Fine. ")) (replyEnv [])
    (some (stringifyValue 0 (chatsJson [sampleChat]))) [sampleChat] (js "How?") (js "4fzyo82m")
    (js " Fine. ") .undefined sampleChat
    (by rw [readChats_printed]; exact decodeChats_chatsJson _) rfl (by decide) rfl rfl
    (by decide) rfl

/-- C4: for every store held by chats.json, every message that passes
validation, every non-blank reply to the single-shot call and a write that
succeeds, a POST /api/chat request without a chatId answers 200 with the id of
a new session as chatId and persists (writeChats leaves it in chats.json and
readChats returns it from there) the old store followed by that one new
session, whose messages are the user message with the trimmed text and the
assistant message with the trimmed reply; starting from the empty store with
the message "Hello", the store afterwards holds exactly one session, with the
messages user "Hello" and assistant the trimmed reply. -/
theorem postApiChat_new_session (env readEnv : Env) (file : ChatsFile)
    (chats : List ChatSession) (m text : JsString) (aiModel : JsVal)
    (hstore : decodeChats (readChats env file).1 = some chats)
    (hv : validateChatInput (.str m) aiModel = .ok [])
    (hreply : env.callModel (.generateContent (trim m)) = .ok text)
    (hnb : trim text ≠ [])
    (hwrite : env.writeFailure = none) :
    ∃ created newFile,
      created.messages =
        [⟨js "user", trim m, env.userTime⟩, ⟨js "assistant", trim text, env.assistantTime⟩] ∧
      created = newChat env (trim m) text ∧
      postApiChat env file ⟨.str m, aiModel, .undefined⟩ =
        some ({ status := 200
                body := .chat (trim text) (aiModel.orElse (.str (js "Gemini")))
                  env.responseTime text.length created.id }, newFile) ∧
      writeChats env (readChats env file).2 (chats ++ [created]) = (.ok (), newFile) ∧
      newFile = some (stringifyValue 0 (chatsJson (chats ++ [created]))) ∧
      decodeChats (readChats readEnv newFile).1 = some (chats ++ [created]) ∧
      (m = js "Hello" → chats = [] →
        decodeChats (readChats readEnv newFile).1 = some [created] ∧
        created.messages =
          [⟨js "user", js "Hello", env.userTime⟩,
           ⟨js "assistant", trim text, env.assistantTime⟩]) := by
  have hread : decodeChats (readChats readEnv
      (some (stringifyValue 0 (chatsJson (chats ++ [newChat env (trim m) text]))))).1 =
      some (chats ++ [newChat env (trim m) text]) := by
    rw [readChats_printed]
    exact decodeChats_chatsJson _
  refine ⟨newChat env (trim m) text,
    some (stringifyValue 0 (chatsJson (chats ++ [newChat env (trim m) text]))),
    rfl, rfl, ?_, writeChats_ok env _ _ hwrite, rfl, hread, ?_⟩
  · rw [postApiChat_eq_postChat _ _ _ _ hstore,
      postChat_falsy_chatId env chats m text aiModel .undefined hv rfl hreply hnb]
    simp only [hwrite, writeChats]
  · intro hm hc
    subst hm
    subst hc
    exact ⟨hread, rfl⟩

/-- Witness of C4: the message "Hello" while chats.json does not exist yet. -/
theorem postApiChat_new_session_witness :
    ∃ created newFile,
      created.messages =
        [⟨js "user", trim (js "Hello"), (replyEnv (js "Hi there\n")).userTime⟩,
         ⟨js "assistant", trim (js "Hi there\n"), (replyEnv (js "Hi there\n")).assistantTime⟩] ∧
      created = newChat (replyEnv (js "Hi there\n")) (trim (js "Hello")) (js "Hi there\n") ∧
      postApiChat (replyEnv (js "Hi there\n")) none ⟨.str (js "Hello"), .undefined, .undefined⟩ =
        some ({ status := 200
                body := .chat (trim (js "Hi there\n")) (JsVal.undefined.orElse (.str (js "Gemini")))
                  (replyEnv (js "Hi there\n")).responseTime (js "Hi there\n").length created.id },
          newFile) ∧
      writeChats (replyEnv (js "Hi there\n")) (readChats (replyEnv (js "Hi there\n")) none).2
        ([] ++ [created]) = (.ok (), newFile) ∧
      newFile = some (stringifyValue 0 (chatsJson ([] ++ [created]))) ∧
      decodeChats (readChats (replyEnv []) newFile).1 = some ([] ++ [created]) ∧
      (js "Hello" = js "Hello" → ([] : List ChatSession) = [] →
        decodeChats (readChats (replyEnv []) newFile).1 = some [created] ∧
        created.messages =
          [⟨js "user", js "Hello", (replyEnv (js "Hi there\n")).userTime⟩,
           ⟨js "assistant", trim (js "Hi there\n"),
             (replyEnv (js "Hi there\n")).assistantTime⟩]) :=
  postApiChat_new_session (replyEnv (js "Hi there\n")) (replyEnv []) none [] (js "Hello")
    (js "Hi there\n") .undefined
    (by rw [readChats_missing _ rfl]; exact decodeChats_chatsJson []) rfl rfl (by decide) rfl

/-! ## Deletion followed by retrieval -/

/-- C11: for every store held by chats.json, every id carried by some session
in it and a write that succeeds, DELETE /api/chat/:id answers 200 and persists
(writeChats leaves it in chats.json and readChats returns it from there) the
store without the sessions of that id: no session of the persisted store has
the id, every other session is in it exactly as often as before, the persisted
store is a sublist of the old one (same relative order), and a subsequent GET
/api/chat/:id for that id on chats.json answers 404 Chat not found. -/
theorem deleteApiChat_known_id (env getEnv : Env) (file : ChatsFile)
    (chats : List ChatSession) (id : JsString)
    (hstore : decodeChats (readChats env file).1 = some chats)
    (h : ∃ c ∈ chats, c.id = id)
    (hwrite : env.writeFailure = none) :
    ∃ updated newFile,
      deleteApiChat env file id =
        some ({ status := 200
                body := .deleted (js "Chat deleted successfully") env.responseTime },
          newFile) ∧
      writeChats env (readChats env file).2 updated = (.ok (), newFile) ∧
      newFile = some (stringifyValue 0 (chatsJson updated)) ∧
      decodeChats (readChats getEnv newFile).1 = some updated ∧
      (∀ c ∈ updated, c.id ≠ id) ∧
      (∀ c, c.id ≠ id → updated.count c = chats.count c) ∧
      List.Sublist updated chats ∧
      getApiChat getEnv newFile id =
        some ({ status := 404
                body := .failure (js "Chat not found") none (some getEnv.responseTime) none },
          newFile) := by
  obtain ⟨c, hc, hid⟩ := h
  have hlen : (chats.filter fun chat => chat.id != id).length ≠ chats.length := by
    intro heq
    have hall := (List.filter_eq_self.1 (List.Sublist.eq_of_length (List.filter_sublist chats) heq))
      c hc
    simp [hid] at hall
  have hne : ¬ chats.length = (chats.filter fun chat => chat.id != id).length :=
    fun e => hlen e.symm
  have hfind : (chats.filter fun chat => chat.id != id).find? (fun c => c.id == id) = none := by
    rw [List.find?_eq_none]
    intro x hx
    have := (List.mem_filter.1 hx).2
    simpa using this
  have hread : ∀ readEnv : Env, readChats readEnv
      (some (stringifyValue 0 (chatsJson (chats.filter fun chat => chat.id != id)))) =
      (chatsJson (chats.filter fun chat => chat.id != id),
        some (stringifyValue 0 (chatsJson (chats.filter fun chat => chat.id != id)))) :=
    fun readEnv => readChats_printed readEnv _
  refine ⟨chats.filter fun chat => chat.id != id,
    some (stringifyValue 0 (chatsJson (chats.filter fun chat => chat.id != id))),
    ?_, writeChats_ok env _ _ hwrite, rfl, ?_, ?_, ?_, List.filter_sublist chats, ?_⟩
  · simp only [deleteApiChat, hstore, beq_iff_eq, hne, if_false, writeChats, hwrite]
  · rw [hread]
    exact decodeChats_chatsJson _
  · intro x hx
    simpa using (List.mem_filter.1 hx).2
  · intro x hx
    exact List.count_filter (by simpa using hx)
  · simp only [getApiChat, hread, decodeChats_chatsJson, hfind]

/-- Witness of C11: deleting `sampleChat` from a file that holds it and "xyz". -/
theorem deleteApiChat_known_id_witness :
    ∃ updated newFile,
      deleteApiChat (replyEnv [])
        (some (stringifyValue 0 (chatsJson [sampleChat, ⟨js "xyz", js "X", [], js "t"⟩])))
        (js "4fzyo82m") =
        some ({ status := 200
                body := .deleted (js "Chat deleted successfully") (replyEnv []).responseTime },
          newFile) ∧
      writeChats (replyEnv [])
        (readChats (replyEnv [])
          (some (stringifyValue 0 (chatsJson [sampleChat, ⟨js "xyz", js "X", [], js "t"⟩])))).2
        updated = (.ok (), newFile) ∧
      newFile = some (stringifyValue 0 (chatsJson updated)) ∧
      decodeChats (readChats (replyEnv []) newFile).1 = some updated ∧
      (∀ c ∈ updated, c.id ≠ js "4fzyo82m") ∧
      (∀ c, c.id ≠ js "4fzyo82m" → updated.count c =
        [sampleChat, ⟨js "xyz", js "X", [], js "t"⟩].count c) ∧
      List.Sublist updated [sampleChat, ⟨js "xyz", js "X", [], js "t"⟩] ∧
      getApiChat (replyEnv []) newFile (js "4fzyo82m") =
        some ({ status := 404
                body := .failure (js "Chat not found") none (some (replyEnv []).responseTime)
                  none }, newFile) :=
  deleteApiChat_known_id (replyEnv []) (replyEnv [])
    (some (stringifyValue 0 (chatsJson [sampleChat, ⟨js "xyz", js "X", [], js "t"⟩])))
    [sampleChat, ⟨js "xyz", js "X", [], js "t"⟩] (js "4fzyo82m")
    (by rw [readChats_printed]; exact decodeChats_chatsJson _)
    ⟨sampleChat, by simp, rfl⟩ rfl

/-! ## Writing the store and reading it back -/

/-- C14: for every sequence S of chat sessions, after a writeChats(S) that
returned, readChats returns the JavaScript value of S (read as a store, it is S
again: same sessions, same order, same messages and fields) and leaves the file
as written, which holds the text JSON.stringify printed for S. -/
theorem readChats_after_writeChats (env readEnv : Env) (file : ChatsFile)
    (S : List ChatSession)
    (hwrite : (writeChats env file S).1 = .ok ()) :
    (readChats readEnv (writeChats env file S).2).1 = chatsJson S ∧
    decodeChats (readChats readEnv (writeChats env file S).2).1 = some S ∧
    (readChats readEnv (writeChats env file S).2).2 = (writeChats env file S).2 ∧
    (writeChats env file S).2 = some (stringifyValue 0 (chatsJson S)) := by
  cases hw : env.writeFailure with
  | some e => simp [writeChats, hw] at hwrite
  | none =>
    rw [writeChats_ok env file S hw]
    refine ⟨?_, ?_, ?_, rfl⟩
    · rw [readChats_printed]
    · rw [readChats_printed]
      exact decodeChats_chatsJson S
    · rw [readChats_printed]

/-- Witness of C14: the store holding `sampleChat`, written over a missing file. -/
theorem readChats_after_writeChats_witness :
    (readChats (replyEnv []) (writeChats (replyEnv []) none [sampleChat]).2).1 =
        chatsJson [sampleChat] ∧
      decodeChats (readChats (replyEnv []) (writeChats (replyEnv []) none [sampleChat]).2).1 =
        some [sampleChat] :=
  ⟨(readChats_after_writeChats (replyEnv []) (replyEnv []) none [sampleChat] rfl).1,
   (readChats_after_writeChats (replyEnv []) (replyEnv []) none [sampleChat] rfl).2.1⟩

end AiBot
